import Mathlib

/-!
# Flappy Bird: simulation core

A shallow embedding of the simulation part of `flappybird.cpp` (bird physics, pipe
scrolling / collision / scoring, pipe spawning, the key and click handlers, the round reset and
the per-frame update), together with the data declared in `structs.h` and `constants.h`.

Modelling conventions.

* C++ `int` is `Int`; signed overflow is undefined behaviour in C++ and the coordinates and
  scores of the game stay far away from the 32-bit range.
* C++ `float` is IEEE-754 binary32 with round-to-nearest-even, modelled exactly by `F32`.
* `rand()` is an input: every function that may draw a random number takes the value drawn
  as an argument `r : Nat`.
* Calls into the audio, texture and window library only produce output; they are left out.
* An access to a `std::vector` outside its bounds is undefined; a function that can make one
  returns an `Option`, with `none` for that case.
* Mouse motion only rescales button rectangles for the hover effect; it is left out, and
  reachability is taken over key presses, clicks and frames.
-/

set_option exponentiation.threshold 512

/-! ## Binary32 arithmetic -/

/-- A binary32 value.  Every finite binary32 number is an integer multiple of `2 ^ (-149)`
(the smallest subnormal), so a finite value is stored as that integer: `fin n` is the number
`n * 2 ^ (-149)`.  The two signed zeros are identified (they compare equal in C++). -/
inductive F32 where
  | fin (n : Int)
  | pinf
  | ninf
  | nan
  deriving DecidableEq, Repr

namespace F32

/-- One step of the bisection in `gridExp`: raise the candidate exponent `acc` by `s` when the
magnitude `m` still reaches `2 ^ (acc + s + 23)`. -/
def stepExp (m s acc : Nat) : Nat := if 2 ^ (acc + s + 23) ≤ m then acc + s else acc

/-- The exponent of the rounding grid for a magnitude `m` (in units of `2 ^ (-149)`):
the largest `k ≤ 255` with `2 ^ (k + 23) ≤ m`, and `0` when there is none, so that
`m / 2 ^ k` has at most 24 bits.  Found by bisection over the eight bits of `k`. -/
def gridExp (m : Nat) : Nat :=
  stepExp m 1 (stepExp m 2 (stepExp m 4 (stepExp m 8 (stepExp m 16 (stepExp m 32
    (stepExp m 64 (stepExp m 128 0)))))))

/-- The invariant of the bisection in `gridExp`, with `s` the width still to search. -/
def ExpInv (m s acc : Nat) : Prop :=
  (acc = 0 ∨ 2 ^ (acc + 23) ≤ m) ∧ (m < 2 ^ 279 → m < 2 ^ (acc + s + 23)) ∧
    (2 ^ 279 ≤ m → acc + s = 256)

/-- Round the non-negative rational `a / b` (in units of `2 ^ (-149)`) to the nearest point of
the binary32 grid, ties to the even significand.  The result is again in units of
`2 ^ (-149)`. -/
def roundRatio (a b : Nat) : Nat :=
  let k := gridExp (a / b)
  let d := b * 2 ^ k
  let q := a / d
  let r := a % d
  (if d < 2 * r ∨ (2 * r = d ∧ q % 2 = 1) then q + 1 else q) * 2 ^ k

/-- The binary32 value nearest to `± a / b` (in units of `2 ^ (-149)`); magnitudes that round to
`2 ^ 128` or more overflow to an infinity. -/
def roundScaled (neg : Bool) (a b : Nat) : F32 :=
  let m := roundRatio a b
  if 2 ^ 277 ≤ m then (if neg then ninf else pinf)
  else fin (if neg then -(m : Int) else (m : Int))

/-- Rounding of an exact value given as an integer number of units `2 ^ (-149)`. -/
def round (z : Int) : F32 := roundScaled (decide (z < 0)) z.natAbs 1

/-- The decimal literal `a / b` written with an `f` suffix, e.g. `0.4f` is `ofRatio 4 10`. -/
def ofRatio (a b : Nat) : F32 := roundScaled false (a * 2 ^ 149) b

/-- Conversion of an `int` to `float`. -/
def ofInt (i : Int) : F32 := round (i * ((2 ^ 149 : Nat) : Int))

/-- Unary minus. -/
def neg : F32 → F32
  | fin n => fin (-n)
  | pinf => ninf
  | ninf => pinf
  | nan => nan

/-- Binary32 addition: the exact sum, rounded. -/
def add : F32 → F32 → F32
  | fin a, fin b => round (a + b)
  | nan, _ => nan
  | _, nan => nan
  | pinf, ninf => nan
  | ninf, pinf => nan
  | pinf, _ => pinf
  | _, pinf => pinf
  | ninf, _ => ninf
  | _, ninf => ninf

/-- Binary32 division: the exact quotient, rounded.  A zero divisor counts as `+0`. -/
def div : F32 → F32 → F32
  | fin a, fin b =>
    if b = 0 then (if a = 0 then nan else if a < 0 then ninf else pinf)
    else roundScaled (decide (a < 0) != decide (b < 0)) (a.natAbs * 2 ^ 149) b.natAbs
  | nan, _ => nan
  | _, nan => nan
  | fin _, _ => fin 0
  | pinf, fin b => if b < 0 then ninf else pinf
  | ninf, fin b => if b < 0 then pinf else ninf
  | _, _ => nan

/-- The comparison `x < y` of C++; false as soon as one side is NaN. -/
def lt : F32 → F32 → Bool
  | nan, _ => false
  | _, nan => false
  | fin a, fin b => decide (a < b)
  | ninf, ninf => false
  | ninf, _ => true
  | _, ninf => false
  | pinf, _ => false
  | fin _, pinf => true

/-- The comparison `x >= y` of C++; false as soon as one side is NaN. -/
def ge : F32 → F32 → Bool
  | nan, _ => false
  | _, nan => false
  | fin a, fin b => decide (b ≤ a)
  | pinf, _ => true
  | _, ninf => true
  | ninf, _ => false
  | fin _, pinf => false

/-- The conversion `static_cast<int>(x)`: truncation toward zero.  The conversion is undefined
in C++ when the truncated value does not fit an `int`; the model then returns what the x86
conversion instruction returns, the smallest `int`. -/
def toInt : F32 → Int
  | fin n =>
    let t := Int.tdiv n ((2 ^ 149 : Nat) : Int)
    if -2147483648 ≤ t ∧ t ≤ 2147483647 then t else -2147483648
  | _ => -2147483648

/-- Finite values: neither an infinity nor NaN. -/
def isFinite : F32 → Bool
  | fin _ => true
  | _ => false

/-- Exact comparison, without rounding: the value of `x` plus `a` is below `c`, with the
infinities ordered as in the extended reals.  Never true for NaN. -/
def exactAddLt : F32 → Int → Int → Prop
  | fin n, a, c => n + a * ((2 ^ 149 : Nat) : Int) < c * ((2 ^ 149 : Nat) : Int)
  | ninf, _, _ => True
  | _, _, _ => False

/-- Exact comparison of a value with zero: `0 ≤ x`.  Never true for NaN. -/
def exactNonneg : F32 → Prop
  | fin n => 0 ≤ n
  | pinf => True
  | _ => False

end F32

/-! ## Constants (`constants.h`) and library key codes -/

namespace Constants

def WINDOW_WIDTH : Int := 640
def WINDOW_HEIGHT : Int := 480
def BIRD_SIZE : Int := 40
def PIPE_WIDTH : Int := 50
def PIPE_GAP : Int := 150
def PIPE_SPACING : Int := 120
def BIRD_SPACING : Int := 80

end Constants

/-- The key code of the space bar in the input library. -/
def SDLK_SPACE : Int := 32
/-- The key code of the up arrow in the input library. -/
def SDLK_UP : Int := 1073741906
/-- The key code of the down arrow in the input library. -/
def SDLK_DOWN : Int := 1073741905
/-- The key code of the left arrow in the input library. -/
def SDLK_LEFT : Int := 1073741904
/-- The key code of the right arrow in the input library. -/
def SDLK_RIGHT : Int := 1073741903

/-! ## Data (`structs.h`) -/

/-- The rectangle type of the graphics library: top-left corner, width, height. -/
structure SDL_Rect where
  x : Int
  y : Int
  w : Int
  h : Int
  deriving DecidableEq, Repr

structure Pipe where
  x : Int
  gapY : Int
  deriving DecidableEq, Repr

structure Bird where
  y : F32
  velocity : F32
  alive : Bool := true
  collided : Bool := false
  dieSoundPlayed : Bool := false
  score : Int := 0
  deriving DecidableEq, Repr

/-- The constructor `Bird(float y_)`. -/
def Bird.new (y_ : F32) : Bird := { y := y_, velocity := F32.ofInt 0 }

structure Button where
  rect : SDL_Rect
  text : String
  originalW : Int
  originalH : Int
  hovered : Bool := false
  isRed : Bool := false
  deriving DecidableEq, Repr

/-- The constructor `Button(x, y, w, h, t, red)`. -/
def Button.new (x y w h : Int) (t : String) (red : Bool) : Button :=
  { rect := { x := x, y := y, w := w, h := h }, text := t, originalW := w, originalH := h,
    isRed := red }

inductive GameState where
  | MENU
  | ONE_PLAYER
  | TWO_PLAYER
  | INFO
  | TWO_PLAYER_WAITING
  | ONE_PLAYER_WAITING
  deriving DecidableEq, Repr

/-- The simulation state held by the `FlappyBird` object. -/
structure FlappyBird where
  birds : List Bird
  pipes : List Pipe
  buttons : List Button
  soundButton : Option Button
  gameState : GameState
  highScore : Int
  winner : Int
  showGameOver : Bool
  isMuted : Bool
  deriving DecidableEq, Repr

/-! ## Rectangle intersection -/

/-- Modelled from the spec: the library routine `SDL_HasIntersection`, whose source is not part
of the repository.  Standard axis-aligned overlap: a rectangle without area meets nothing, and
two rectangles meet when their extents overlap strictly on both axes (adjacency is not an
overlap). -/
def SDL_HasIntersection (A B : SDL_Rect) : Bool :=
  if A.w ≤ 0 ∨ A.h ≤ 0 ∨ B.w ≤ 0 ∨ B.h ≤ 0 then false
  else if min (A.x + A.w) (B.x + B.w) ≤ max A.x B.x then false
  else if min (A.y + A.h) (B.y + B.h) ≤ max A.y B.y then false
  else true

/-- Two rectangles overlap with positive area: some open box lies inside both, that is, the
intersection of the extents is a non-degenerate interval on each axis. -/
def overlapsWithArea (A B : SDL_Rect) : Prop :=
  max A.x B.x < min (A.x + A.w) (B.x + B.w) ∧ max A.y B.y < min (A.y + A.h) (B.y + B.h)

namespace FlappyBird

open Constants

/-! ## Start-up -/

def setupMenu (g : FlappyBird) : FlappyBird :=
  let centerX := WINDOW_WIDTH / 2 - 100
  { g with
    buttons := [Button.new centerX (WINDOW_HEIGHT / 2 - 60) 200 30 "1 Player" false,
                Button.new centerX (WINDOW_HEIGHT / 2) 200 30 "2 Players" false,
                Button.new centerX (WINDOW_HEIGHT / 2 + 60) 200 30 "Information" false]
    soundButton := some (Button.new (WINDOW_WIDTH - 50) 10 40 40 "" false) }

/-- The state after the constructor: the member initialisers of the class, the high score read
from the file (`loaded`), and the menu. -/
def initial (loaded : Int) : FlappyBird :=
  setupMenu
    { birds := [], pipes := [], buttons := [], soundButton := none,
      gameState := GameState.MENU, highScore := loaded, winner := -1,
      showGameOver := false, isMuted := false }

/-! ## Bird physics -/

/-- The body of the loop of `updateBirdPhysics` for one bird. -/
def birdPhysics (bird : Bird) : Bird :=
  let bird := { bird with velocity := bird.velocity.add (F32.ofRatio 4 10) }
  let bird := { bird with y := bird.y.add bird.velocity }
  let bird :=
    if (bird.y.add (F32.ofInt BIRD_SIZE)).ge (F32.ofInt WINDOW_HEIGHT) then
      if bird.collided then { bird with alive := false }
      else if bird.alive then { bird with alive := false }
      else bird
    else bird
  if bird.y.lt (F32.ofInt 0) then { bird with y := F32.ofInt 0, velocity := F32.ofInt 0 }
  else bird

def updateBirdPhysics (g : FlappyBird) : FlappyBird :=
  { g with birds := g.birds.map birdPhysics }

/-! ## Pipes -/

/-- The rectangle of the bird with index `i`. -/
def birdRect (i : Nat) (bird : Bird) : SDL_Rect :=
  { x := WINDOW_WIDTH / 4 + (i : Int) * BIRD_SPACING, y := bird.y.toInt,
    w := BIRD_SIZE, h := BIRD_SIZE }

def topPipe (it : Pipe) : SDL_Rect :=
  { x := it.x, y := 0, w := PIPE_WIDTH, h := it.gapY - PIPE_GAP / 2 }

def bottomPipe (it : Pipe) : SDL_Rect :=
  { x := it.x, y := it.gapY + PIPE_GAP / 2, w := PIPE_WIDTH,
    h := WINDOW_HEIGHT - (it.gapY + PIPE_GAP / 2) }

/-- The collision test of `updatePipes` for the bird with index `i` against one pipe. -/
def hitsPipe (it : Pipe) (i : Nat) (bird : Bird) : Bool :=
  SDL_HasIntersection (birdRect i bird) (topPipe it) ||
    SDL_HasIntersection (birdRect i bird) (bottomPipe it)

/-- The body of the inner loop of `updatePipes` for the bird with index `i`. -/
def collideBird (it : Pipe) (i : Nat) (bird : Bird) : Bird :=
  if !bird.alive then bird
  else if hitsPipe it i bird && !bird.collided then { bird with collided := true }
  else bird

/-- The inner loop of `updatePipes` over the birds, from index `i` on. -/
def collideBirds (it : Pipe) : Nat → List Bird → List Bird
  | _, [] => []
  | i, bird :: rest => collideBird it i bird :: collideBirds it (i + 1) rest

/-- The scoring window of `updatePipes`, tested on the scrolled pipe. -/
def inScoringWindow (it : Pipe) : Bool :=
  decide (it.x + PIPE_WIDTH < WINDOW_WIDTH / 4) &&
    decide (it.x + PIPE_WIDTH ≥ WINDOW_WIDTH / 4 - 2)

/-- The body of the scoring loop of `updatePipes`. -/
def scoreBird (bird : Bird) : Bird :=
  if bird.alive then { bird with score := bird.score + 1 } else bird

/-- The scoring loop of `updatePipes` for one pipe. -/
def scoreBirds (it : Pipe) (birds : List Bird) : List Bird :=
  if inScoringWindow it then birds.map scoreBird else birds

/-- The loop of `updatePipes` over the pipes; a pipe that left the screen is erased during the
traversal. -/
def updatePipesLoop : List Pipe → List Bird → List Pipe × List Bird
  | [], birds => ([], birds)
  | it :: rest, birds =>
    let it := { it with x := it.x - 2 }
    let birds := collideBirds it 0 birds
    let birds := scoreBirds it birds
    let out := updatePipesLoop rest birds
    (if it.x + PIPE_WIDTH < 0 then out.1 else it :: out.1, out.2)

def updatePipes (g : FlappyBird) : FlappyBird :=
  let out := updatePipesLoop g.pipes g.birds
  { g with pipes := out.1, birds := out.2 }

/-- The pipe list after `spawnPipe`; `r` is the value `rand()` returns when it is called. -/
def spawnPipe (g : FlappyBird) (r : Nat) : FlappyBird :=
  if g.pipes.isEmpty ||
      (match g.pipes.getLast? with
        | some back => decide (WINDOW_WIDTH - back.x ≥ PIPE_SPACING + PIPE_WIDTH)
        | none => false) then
    let gapY := (r : Int) % (WINDOW_HEIGHT - PIPE_GAP - 150) + 75
    { g with pipes := g.pipes ++ [{ x := WINDOW_WIDTH, gapY := gapY }] }
  else g

/-! ## Rounds -/

def startGame (g : FlappyBird) (r : Nat) : FlappyBird :=
  { g with
    birds := g.birds.map (fun bird =>
      { bird with score := 0, alive := true, collided := false, dieSoundPlayed := false })
    winner := -1
    pipes := g.pipes ++
      [{ x := WINDOW_WIDTH, gapY := (r : Int) % (WINDOW_HEIGHT - PIPE_GAP - 100) + 50 }]
    gameState :=
      if g.gameState = GameState.TWO_PLAYER_WAITING then GameState.TWO_PLAYER
      else GameState.ONE_PLAYER
    buttons := [] }

/-- The button `reset` and `update` install. -/
def returnToMenuButton : Button :=
  Button.new (WINDOW_WIDTH / 2 - 140) (WINDOW_HEIGHT - 60) 280 30 "Return to Menu" true

def reset (g : FlappyBird) (players : Int) : FlappyBird :=
  let first := Bird.new ((F32.ofInt WINDOW_HEIGHT).div (F32.ofRatio 2 1))
  if players = 2 then
    { g with
      birds := [first, Bird.new ((F32.ofInt WINDOW_HEIGHT).div (F32.ofRatio 2 1))]
      pipes := []
      gameState := GameState.TWO_PLAYER_WAITING
      buttons := [returnToMenuButton]
      showGameOver := false }
  else
    { g with
      birds := [{ first with score := 0, alive := true, collided := false,
                             dieSoundPlayed := false }]
      pipes := []
      gameState := GameState.ONE_PLAYER_WAITING
      highScore := max g.highScore first.score
      winner := -1
      buttons := [returnToMenuButton]
      showGameOver := false }

def updateGameOver (g : FlappyBird) : FlappyBird :=
  match g.birds with
  | [b0, b1] =>
    if g.gameState = GameState.TWO_PLAYER then
      let maxScore := max b0.score b1.score
      { g with
        highScore := max g.highScore maxScore
        winner := if b0.score > b1.score then 0 else if b1.score > b0.score then 1 else -1 }
    else g
  | [b0] => { g with highScore := max g.highScore b0.score }
  | _ => g

/-- The body of the death-sound loop of `update`. -/
def dieSoundSweep (bird : Bird) : Bird :=
  if !bird.alive && bird.collided && !bird.dieSoundPlayed then
    { bird with dieSoundPlayed := true }
  else bird

/-- One frame of simulation; `r` is the value `rand()` returns if the spawn rule draws. -/
def update (g : FlappyBird) (r : Nat) : FlappyBird :=
  if g.gameState = GameState.MENU ∨ g.gameState = GameState.INFO ∨
      g.gameState = GameState.TWO_PLAYER_WAITING ∨
      g.gameState = GameState.ONE_PLAYER_WAITING ∨ g.showGameOver = true then g
  else
    let g := g.updateBirdPhysics
    let g := g.updatePipes
    let g := { g with birds := g.birds.map dieSoundSweep }
    let g := g.spawnPipe r
    if g.birds.isEmpty || g.birds.all (fun b => !b.alive) then
      if !g.showGameOver then
        let g := g.updateGameOver
        { g with showGameOver := true, buttons := [returnToMenuButton] }
      else g
    else g

/-- The flap of the bird in front of the list (`birds[0].velocity = -8.0f`, guarded). -/
def flapFirst (g : FlappyBird) (key : Int) : FlappyBird :=
  match g.birds with
  | b0 :: rest =>
    if key = SDLK_SPACE ∧ b0.alive = true ∧ b0.collided = false then
      { g with birds := { b0 with velocity := (F32.ofRatio 8 1).neg } :: rest }
    else g
  | [] => g

/-- The flap of the second bird (`birds[1].velocity = -8.0f`, guarded). -/
def flapSecond (g : FlappyBird) (key : Int) : FlappyBird :=
  match g.birds with
  | b0 :: b1 :: rest =>
    if b1.alive = true ∧ b1.collided = false ∧ key = SDLK_UP then
      { g with birds := b0 :: { b1 with velocity := (F32.ofRatio 8 1).neg } :: rest }
    else g
  | _ => g

/-- The key handler; `r` is the value `rand()` returns if the game is started. -/
def handleKeyDown (g : FlappyBird) (key : Int) (r : Nat) : FlappyBird :=
  let g :=
    match g.gameState with
    | GameState.TWO_PLAYER_WAITING => if key = SDLK_SPACE then g.startGame r else g
    | GameState.ONE_PLAYER_WAITING => if key = SDLK_SPACE then g.startGame r else g
    | GameState.ONE_PLAYER => g.flapFirst key
    | GameState.TWO_PLAYER => (g.flapFirst key).flapSecond key
    | _ => g
  if g.showGameOver = true ∧ key = SDLK_SPACE then
    g.reset (if g.gameState = GameState.ONE_PLAYER then 1 else 2)
  else g

/-- Consecutive frames without input; the list holds the value `rand()` would return in each
frame. -/
def updates (g : FlappyBird) : List Nat → FlappyBird
  | [] => g
  | r :: rs => updates (g.update r) rs

/-- A one-player round right after the launch key. -/
def freshRound : FlappyBird := handleKeyDown ((initial 0).reset 1) SDLK_SPACE 7

/-- A two-player round in which only the second player flaps, once, in frame 21: the state after
32 frames. -/
def loneSurvivor : FlappyBird :=
  updates
    (handleKeyDown
      (updates (handleKeyDown ((initial 0).reset 2) SDLK_SPACE 7) (List.replicate 20 0))
      SDLK_UP 0)
    (List.replicate 12 0)

/-- Consecutive pipe steps (`updatePipes`), `n` of them. -/
def pipeSteps : Nat → FlappyBird → FlappyBird
  | 0, g => g
  | n + 1, g => (pipeSteps n g).updatePipes

/-- Frames in which the first player presses the flap key every time, `n` of them. -/
def flapFrames : Nat → FlappyBird → FlappyBird
  | 0, g => g
  | n + 1, g => (handleKeyDown (flapFrames n g) SDLK_SPACE 0).update 0

/-- A one-player round after 31 frames of flapping, with the flap key handled once more: the
bird is just below the ceiling and still rising. -/
def climber : FlappyBird := handleKeyDown (flapFrames 31 freshRound) SDLK_SPACE 0

/-- The bird of `climber`. -/
def climbing : Bird := climber.birds.headD (Bird.new (F32.ofInt 0))

/-- A one-player round in which the pipe step has just marked the bird: the bird rectangle lies
inside the top pipe. -/
def struck : FlappyBird :=
  updatePipes { freshRound with
    pipes := [⟨162, 200⟩]
    birds := [{ y := F32.ofInt 50, velocity := F32.ofInt 0 }] }

/-- The bird of `struck`. -/
def struckBird : Bird := struck.birds.headD (Bird.new (F32.ofInt 0))

/-- A one-player round after 31 frames without input: the bird is about to reach the ground. -/
def sinking : FlappyBird := updates freshRound (List.replicate 31 0)

/-- The bird of `sinking`. -/
def sinkingBird : Bird := sinking.birds.headD (Bird.new (F32.ofInt 0))

/-- The simulation part of a frame: physics, pipes, death-sound sweep and spawn, before the
terminal check of `update`. -/
def simulated (g : FlappyBird) (r : Nat) : FlappyBird :=
  spawnPipe
    { updatePipes (updateBirdPhysics g) with
      birds := (updatePipes (updateBirdPhysics g)).birds.map dieSoundSweep } r

/-- A one-player round after 32 frames without input: the bird has reached the ground and the
round is over. -/
def grounded : FlappyBird := updates freshRound (List.replicate 32 0)

/-- A two-player round after 32 frames without input: both birds have reached the ground and the
round is over. -/
def bothGrounded : FlappyBird :=
  updates (handleKeyDown ((initial 0).reset 2) SDLK_SPACE 7) (List.replicate 32 0)

/-- A finished two-player round with scores 5 and 3 and previous best score 4, before the
outcome is computed. -/
def finishedDuel : FlappyBird :=
  { bothGrounded with
    birds := [{ y := F32.ofInt 440, velocity := F32.ofInt 0, alive := false, score := 5 },
              { y := F32.ofInt 440, velocity := F32.ofInt 0, alive := false, score := 3 }]
    highScore := 4 }

/-- A finished one-player round with score 6 and previous best score 4, before the outcome is
computed. -/
def finishedSolo : FlappyBird :=
  { grounded with
    birds := [{ y := F32.ofInt 440, velocity := F32.ofInt 0, alive := false, score := 6 }]
    highScore := 4 }

/-! ## Mouse input and runs of events -/

def isPointInRect (x y : Int) (rect : SDL_Rect) : Bool :=
  decide (x ≥ rect.x) && decide (x ≤ rect.x + rect.w) && decide (y ≥ rect.y) &&
    decide (y ≤ rect.y + rect.h)

/-- The click handler of the menu.  The accesses `buttons[0]`, `buttons[1]`, `buttons[2]` are
made in turn, as far as the chain of tests goes; an access outside the list is undefined in C++
and gives `none`.  `truongW` is the width the text renderer reports for the signature line; the
button of the information screen is built from it. -/
def handleMenuClick (g : FlappyBird) (x y truongW : Int) : Option FlappyBird :=
  if (match g.soundButton with
      | some sb => isPointInRect x y sb.rect
      | none => false) then
    some { g with isMuted := !g.isMuted }
  else
    match g.buttons[0]? with
    | none => none
    | some b0 =>
      if isPointInRect x y b0.rect then some (g.reset 1)
      else
        match g.buttons[1]? with
        | none => none
        | some b1 =>
          if isPointInRect x y b1.rect then some (g.reset 2)
          else
            match g.buttons[2]? with
            | none => none
            | some b2 =>
              if isPointInRect x y b2.rect then
                some { g with
                  gameState := GameState.INFO
                  buttons := [Button.new (Int.tdiv (WINDOW_WIDTH - truongW) 2)
                    (WINDOW_HEIGHT - 60) truongW 30 "Return" true] }
              else some g

/-- The click handler.  Outside the menu it reads `buttons[0]`; when the button list is empty
that access is undefined in C++ and the result is `none`. -/
def handleMouseClick (g : FlappyBird) (x y truongW : Int) : Option FlappyBird :=
  match g.gameState with
  | GameState.MENU => handleMenuClick g x y truongW
  | _ =>
    match g.buttons[0]? with
    | none => none
    | some b0 =>
      if isPointInRect x y b0.rect then some (setupMenu { g with gameState := GameState.MENU })
      else some g

/-- The events of the game loop that reach the simulation: a key press (with the value `rand()`
returns if the game is started), a left click, and the simulation tick (with the value `rand()`
returns if a pipe is spawned). -/
inductive Event where
  | keyDown (key : Int) (r : Nat)
  | mouseClick (x y : Int)
  | tick (r : Nat)
  deriving DecidableEq, Repr

/-- One event of the game loop. -/
def step (truongW : Int) (g : FlappyBird) : Event → Option FlappyBird
  | Event.keyDown key r => some (handleKeyDown g key r)
  | Event.mouseClick x y => handleMouseClick g x y truongW
  | Event.tick r => some (update g r)

/-- A run of events, as long as every step is defined. -/
def run (truongW : Int) : FlappyBird → List Event → Option FlappyBird
  | g, [] => some g
  | g, e :: es =>
    match step truongW g e with
    | some g' => run truongW g' es
    | none => none

/-- The states the game can be in: the state after the constructor, and every state that an
event of the game loop leads to from such a state. -/
inductive Reachable (truongW loaded : Int) : FlappyBird → Prop where
  | init : Reachable truongW loaded (initial loaded)
  | next (g g' : FlappyBird) (e : Event) :
      Reachable truongW loaded g → step truongW g e = some g' → Reachable truongW loaded g'

/-- The bird count that belongs to the mode. -/
def BirdCount (g : FlappyBird) : Prop :=
  ((g.gameState = GameState.ONE_PLAYER_WAITING ∨ g.gameState = GameState.ONE_PLAYER) →
      g.birds.length = 1) ∧
    ((g.gameState = GameState.TWO_PLAYER_WAITING ∨ g.gameState = GameState.TWO_PLAYER) →
      g.birds.length = 2)

/-- The events of a one-player round played from the menu: the click on "1 Player" and the
launch key. -/
def soloLaunch : List Event :=
  [Event.mouseClick 300 190, Event.keyDown SDLK_SPACE 7]

/-- The state in the middle of a one-player round started from the menu. -/
def soloPlaying : FlappyBird := (run 96 (initial 0) soloLaunch).getD (initial 0)

/-- The events of a one-player round that ends on the ground after 32 frames, followed by the
click on "Return to Menu". -/
def soloAndBack : List Event :=
  soloLaunch ++ List.replicate 32 (Event.tick 0) ++ [Event.mouseClick 320 430]

/-- The menu after a finished one-player round. -/
def menuAfterRound : FlappyBird := (run 96 (initial 0) soloAndBack).getD (initial 0)

/-- The state right after a two-player launch from the menu state. -/
def duelStart : FlappyBird := handleKeyDown ((initial 0).reset 2) SDLK_SPACE 7

/-- The shape of the pipe list during a round: consecutive pipes are exactly 170 apart, and the
last pipe has an even `x` between `lo` and 640. -/
def PipeTrain (lo : Int) : List Pipe → Prop
  | [] => False
  | [p] => lo ≤ p.x ∧ p.x ≤ 640 ∧ p.x % 2 = 0
  | p :: q :: rest => q.x = p.x + 170 ∧ PipeTrain lo (q :: rest)

/-- The invariant of the pipe list between frames: a train whose last pipe is to the right of
`x = 470` and whose first pipe has not left the screen. -/
def PipeInv (ps : List Pipe) : Prop :=
  PipeTrain 472 ps ∧ ∀ first, ps.head? = some first → -50 ≤ first.x

/-- A fresh bird after `k` physics steps without input. -/
def fall : Nat → Bird
  | 0 => { y := F32.ofInt 240, velocity := F32.ofInt 0 }
  | k + 1 => birdPhysics (fall k)

/-- The state `s0` with `m` birds that have fallen for `k` frames and a single pipe at `x`. -/
def fallAt (s0 : FlappyBird) (m : Nat) (gapY : Int) (k : Nat) (x : Int) : FlappyBird :=
  { s0 with birds := List.replicate m (fall k), pipes := [⟨x, gapY⟩] }

/-- The state `s0` with `m` birds that have fallen for `j` frames and the launch pipe scrolled
`j` times. -/
def fallState (s0 : FlappyBird) (m : Nat) (gapY : Int) (j : Nat) : FlappyBird :=
  fallAt s0 m gapY j (640 - 2 * (j : Int))

/-- The first bird of `loneSurvivor`: it has fallen to the ground while the round goes on. -/
def fallen : Bird := loneSurvivor.birds.headD (Bird.new (F32.ofInt 0))

end FlappyBird

/-! ## Facts about binary32 rounding -/

namespace F32

theorem expInv_step (m s acc : Nat) (hs : 0 < s) (h : ExpInv m (2 * s) acc) :
    ExpInv m s (stepExp m s acc) := by
  obtain ⟨h1, h2, h3⟩ := h
  unfold stepExp
  split
  · rename_i hle
    refine ⟨Or.inr ?_, ?_, ?_⟩
    · have : acc + s + 23 = acc + s + 23 := rfl
      simpa using hle
    · intro hm
      have := h2 hm
      have e : acc + 2 * s + 23 = acc + s + s + 23 := by omega
      rwa [e] at this
    · intro hm
      have := h3 hm
      omega
  · rename_i hle
    refine ⟨h1, fun _ => by omega, ?_⟩
    intro hm
    have := h3 hm
    have e : acc + s + 23 ≤ 279 := by omega
    have : 2 ^ (acc + s + 23) ≤ 2 ^ 279 := Nat.pow_le_pow_right (by norm_num) e
    omega

theorem expInv_gridExp (m : Nat) : ExpInv m 1 (gridExp m) := by
  unfold gridExp
  have h0 : ExpInv m 256 0 := ⟨Or.inl rfl, fun h => by simpa using h, fun _ => rfl⟩
  have h1 := expInv_step m 128 _ (by norm_num) h0
  have h2 := expInv_step m 64 _ (by norm_num) h1
  have h3 := expInv_step m 32 _ (by norm_num) h2
  have h4 := expInv_step m 16 _ (by norm_num) h3
  have h5 := expInv_step m 8 _ (by norm_num) h4
  have h6 := expInv_step m 4 _ (by norm_num) h5
  have h7 := expInv_step m 2 _ (by norm_num) h6
  exact expInv_step m 1 _ (by norm_num) h7

theorem gridExp_le (m : Nat) : gridExp m ≤ 255 := by
  obtain ⟨h1, h2, h3⟩ := expInv_gridExp m
  by_cases hm : m < 2 ^ 279
  · by_contra hc
    rcases h1 with h | h
    · omega
    · have e : 279 ≤ gridExp m + 23 := by omega
      have : 2 ^ 279 ≤ 2 ^ (gridExp m + 23) := Nat.pow_le_pow_right (by norm_num) e
      omega
  · have := h3 (by omega)
    omega

theorem gridExp_upper (m : Nat) (hm : m < 2 ^ 279) : m < 2 ^ (gridExp m + 24) := by
  obtain ⟨_, h2, _⟩ := expInv_gridExp m
  exact h2 hm

theorem gridExp_zero (m : Nat) (hm : m < 2 ^ 24) : gridExp m = 0 := by
  obtain ⟨h1, _, _⟩ := expInv_gridExp m
  rcases h1 with h | h
  · exact h
  · by_contra hc
    have e : 24 ≤ gridExp m + 23 := by omega
    have : 2 ^ 24 ≤ 2 ^ (gridExp m + 23) := Nat.pow_le_pow_right (by norm_num) e
    omega

theorem gridExp_lower (m : Nat) (hm : 2 ^ 24 ≤ m) : 2 ^ (gridExp m + 23) ≤ m := by
  obtain ⟨h1, h2, h3⟩ := expInv_gridExp m
  rcases h1 with h | h
  · by_cases hb : m < 2 ^ 279
    · have := h2 hb
      rw [h] at this
      norm_num at this
      omega
    · have := h3 (by omega)
      omega
  · exact h
theorem gridExp_big (m : Nat) (hm : 2 ^ 279 ≤ m) : gridExp m = 255 := by
  obtain ⟨_, _, h3⟩ := expInv_gridExp m
  have := h3 hm
  omega

/-- The shape of a rounded magnitude: with `m = q * 2 ^ k + r` on the grid of `m`, the result is
`q * 2 ^ k` or the next grid point. -/
theorem roundRatio_one_shape (m : Nat) :
    ∃ q r : Nat, m = q * 2 ^ gridExp m + r ∧ r < 2 ^ gridExp m ∧
      (roundRatio m 1 = q * 2 ^ gridExp m ∨ roundRatio m 1 = q * 2 ^ gridExp m + 2 ^ gridExp m) ∧
      (r = 0 → roundRatio m 1 = q * 2 ^ gridExp m) ∧ q = m / 2 ^ gridExp m := by
  have hD : 0 < 2 ^ gridExp m := Nat.pos_pow_of_pos _ (by norm_num)
  refine ⟨m / 2 ^ gridExp m, m % 2 ^ gridExp m, (Nat.div_add_mod' m _).symm,
    Nat.mod_lt _ hD, ?_, ?_, rfl⟩
  · unfold roundRatio
    simp only [Nat.div_one, one_mul]
    split
    · right
      rw [Nat.add_mul, one_mul]
    · left
      rfl
  · intro hr
    unfold roundRatio
    simp only [Nat.div_one, one_mul]
    rw [if_neg]
    rw [hr]
    omega

theorem roundRatio_one_small (m : Nat) (hm : m < 2 ^ 24) : roundRatio m 1 = m := by
  obtain ⟨q, r, h1, h2, _, h4, _⟩ := roundRatio_one_shape m
  rw [gridExp_zero m hm] at h1 h2 h4
  simp only [pow_zero, mul_one] at h1 h2 h4
  have hr : r = 0 := by omega
  rw [h4 hr]
  omega

/-- The grid step is at most `2 ^ (-23)` times the magnitude. -/
theorem grid_le (m : Nat) (hm : 2 ^ 24 ≤ m) : 2 ^ gridExp m * 2 ^ 23 ≤ m := by
  have := gridExp_lower m hm
  rwa [pow_add] at this

theorem roundRatio_one_rel (m : Nat) : 2 ^ 23 * roundRatio m 1 ≤ (2 ^ 23 + 1) * m := by
  by_cases hm : m < 2 ^ 24
  · rw [roundRatio_one_small m hm]
    omega
  · obtain ⟨q, r, h1, h2, h3, _, _⟩ := roundRatio_one_shape m
    have hg := grid_le m (by omega)
    rcases h3 with h | h <;> rw [h] <;> omega

theorem roundRatio_one_pos (m : Nat) (hm : 0 < m) : 0 < roundRatio m 1 := by
  by_cases hs : m < 2 ^ 24
  · rw [roundRatio_one_small m hs]
    exact hm
  · obtain ⟨q, r, h1, h2, h3, _, _⟩ := roundRatio_one_shape m
    have hg := grid_le m (by omega)
    have hD : 0 < 2 ^ gridExp m := Nat.pos_pow_of_pos _ (by norm_num)
    have hq : 0 < q * 2 ^ gridExp m := by
      by_contra hc
      have : q * 2 ^ gridExp m = 0 := by omega
      omega
    rcases h3 with h | h <;> rw [h] <;> omega

/-- Rounding does not go below a grid point that the argument reaches: the case of `480.0`. -/
theorem roundRatio_one_ge_480 (m : Nat) (hm : 480 * 2 ^ 149 ≤ m) :
    480 * 2 ^ 149 ≤ roundRatio m 1 := by
  obtain ⟨q, r, h1, h2, h3, _, hq⟩ := roundRatio_one_shape m
  have hg := grid_le m (by omega)
  have hfloor : 480 * 2 ^ 149 ≤ q * 2 ^ gridExp m := by
    by_cases hk : gridExp m ≤ 134
    · have hdvd : 2 ^ gridExp m ∣ 480 * 2 ^ 149 := by
        have e : (480 : Nat) * 2 ^ 149 = 2 ^ 134 * (15 * 2 ^ 20) := by norm_num
        rw [e]
        exact Dvd.dvd.mul_right (pow_dvd_pow 2 hk) _
      obtain ⟨c, hc⟩ := hdvd
      rw [hc, hq, mul_comm]
      apply Nat.mul_le_mul_right
      rw [Nat.le_div_iff_mul_le (Nat.pos_pow_of_pos _ (by norm_num))]
      calc c * 2 ^ gridExp m = 2 ^ gridExp m * c := mul_comm _ _
        _ = 480 * 2 ^ 149 := hc.symm
        _ ≤ m := hm
    · have e : 158 ≤ gridExp m + 23 := by omega
      have h158 : 2 ^ 158 ≤ 2 ^ (gridExp m + 23) := Nat.pow_le_pow_right (by norm_num) e
      have hq23 : 2 ^ 23 ≤ q := by
        rw [hq, Nat.le_div_iff_mul_le (Nat.pos_pow_of_pos _ (by norm_num))]
        rw [mul_comm]
        exact hg
      have : 2 ^ 23 * 2 ^ gridExp m ≤ q * 2 ^ gridExp m := Nat.mul_le_mul_right _ hq23
      rw [pow_add] at h158
      have e2 : (2 : Nat) ^ 23 * 2 ^ gridExp m = 2 ^ gridExp m * 2 ^ 23 := mul_comm _ _
      omega
  rcases h3 with h | h <;> rw [h] <;> omega

/-- A rounded magnitude of at least `256.0` lies on the grid of step `2 ^ (-15)`. -/
theorem roundRatio_one_grid (x : Nat) (hx : 2 ^ 157 ≤ roundRatio x 1) :
    2 ^ 134 ∣ roundRatio x 1 := by
  obtain ⟨q, r, h1, h2, h3, _, hq⟩ := roundRatio_one_shape x
  by_cases hk : 134 ≤ gridExp x
  · have hd : 2 ^ 134 ∣ 2 ^ gridExp x := pow_dvd_pow 2 hk
    rcases h3 with h | h <;> rw [h]
    · exact Dvd.dvd.mul_left hd q
    · exact dvd_add (Dvd.dvd.mul_left hd q) hd
  · have hx279 : x < 2 ^ 279 := by
      by_contra hc
      have := gridExp_big x (by omega)
      omega
    have hup := gridExp_upper x hx279
    rw [pow_add] at hup
    have e : gridExp x + 24 ≤ 157 := by omega
    have h157 : 2 ^ (gridExp x + 24) ≤ 2 ^ 157 := Nat.pow_le_pow_right (by norm_num) e
    rw [pow_add] at h157
    have hq24 : q < 2 ^ 24 := by
      rw [hq, Nat.div_lt_iff_lt_mul (Nat.pos_pow_of_pos _ (by norm_num))]
      rw [mul_comm]
      exact hup
    have hq1 : (q + 1) * 2 ^ gridExp x ≤ 2 ^ 24 * 2 ^ gridExp x :=
      Nat.mul_le_mul_right _ (by omega)
    rw [Nat.add_mul, one_mul] at hq1
    have e2 : (2 : Nat) ^ 24 * 2 ^ gridExp x = 2 ^ gridExp x * 2 ^ 24 := mul_comm _ _
    have heq : roundRatio x 1 = 2 ^ 157 := by
      rcases h3 with h | h <;> rw [h] at hx ⊢ <;> omega
    rw [heq]
    exact pow_dvd_pow 2 (by norm_num)

/-- Values between `256.0` and `512.0` on the grid of step `2 ^ (-15)` are not moved. -/
theorem roundRatio_one_exact (m : Nat) (h1 : 2 ^ 157 ≤ m) (h2 : m < 2 ^ 158)
    (hd : 2 ^ 134 ∣ m) : roundRatio m 1 = m := by
  have hlow := gridExp_lower m (by omega)
  have hup := gridExp_upper m (by omega)
  have hk : gridExp m = 134 := by
    have a : gridExp m + 23 < 158 := by
      by_contra hc
      have : 2 ^ 158 ≤ 2 ^ (gridExp m + 23) := Nat.pow_le_pow_right (by norm_num) (by omega)
      omega
    have b : 157 < gridExp m + 24 := by
      by_contra hc
      have : 2 ^ (gridExp m + 24) ≤ 2 ^ 157 := Nat.pow_le_pow_right (by norm_num) (by omega)
      omega
    omega
  obtain ⟨q, r, e1, e2, _, e4, _⟩ := roundRatio_one_shape m
  rw [hk] at e1 e2 e4
  have hr : r = 0 := by
    obtain ⟨c, hc⟩ := hd
    have : 2 ^ 134 ∣ r := by
      have h3 : r = m - q * 2 ^ 134 := by omega
      rw [h3]
      exact Nat.dvd_sub' ⟨c, hc⟩ (Dvd.dvd.mul_left (dvd_refl _) q)
    exact Nat.eq_zero_of_dvd_of_lt this e2
  rw [e4 hr]
  omega
theorem round_natCast (m : Nat) :
    round (m : Int) = if 2 ^ 277 ≤ roundRatio m 1 then pinf else fin (roundRatio m 1 : Nat) := by
  unfold round roundScaled
  have h : ¬ ((m : Int) < 0) := by omega
  simp [h]

theorem round_neg_natCast (m : Nat) (hm : 0 < m) :
    round (-(m : Int)) =
      if 2 ^ 277 ≤ roundRatio m 1 then ninf else fin (-((roundRatio m 1 : Nat) : Int)) := by
  unfold round roundScaled
  have h : (-(m : Int) < 0) := by omega
  simp [h]

theorem ofInt_zero : ofInt 0 = fin 0 := by decide
theorem ofInt_40 : ofInt 40 = fin ((40 * 2 ^ 149 : Nat) : Int) := by decide
theorem ofInt_480 : ofInt 480 = fin ((480 * 2 ^ 149 : Nat) : Int) := by decide
theorem ofRatio_4_10 : ofRatio 4 10 = fin ((13421773 * 2 ^ 124 : Nat) : Int) := by decide

theorem floorTest_neg (n : Int) (hn : n < 0) :
    ((fin n).add (ofInt 40)).ge (ofInt 480) = false := by
  rw [ofInt_40, ofInt_480]
  show (round (n + ((40 * 2 ^ 149 : Nat) : Int))).ge _ = false
  rcases lt_or_le (n + ((40 * 2 ^ 149 : Nat) : Int)) 0 with h | h
  · obtain ⟨m, hm⟩ : ∃ m : Nat, n + ((40 * 2 ^ 149 : Nat) : Int) = -(m : Int) :=
      ⟨(-(n + ((40 * 2 ^ 149 : Nat) : Int))).toNat, by omega⟩
    rw [hm, round_neg_natCast m (by omega)]
    split
    · rfl
    · simp only [ge, decide_eq_false_iff_not]
      omega
  · obtain ⟨m, hm⟩ : ∃ m : Nat, n + ((40 * 2 ^ 149 : Nat) : Int) = (m : Int) :=
      ⟨(n + ((40 * 2 ^ 149 : Nat) : Int)).toNat, by omega⟩
    have hrel := roundRatio_one_rel m
    have hlt : m < 40 * 2 ^ 149 := by omega
    rw [hm, round_natCast, if_neg (by omega)]
    simp only [ge, decide_eq_false_iff_not]
    omega

theorem floorTest_ge (n : Int) (hn : ((440 * 2 ^ 149 : Nat) : Int) ≤ n) :
    ((fin n).add (ofInt 40)).ge (ofInt 480) = true := by
  rw [ofInt_40, ofInt_480]
  show (round (n + ((40 * 2 ^ 149 : Nat) : Int))).ge _ = true
  obtain ⟨m, hm⟩ : ∃ m : Nat, n + ((40 * 2 ^ 149 : Nat) : Int) = (m : Int) :=
    ⟨(n + ((40 * 2 ^ 149 : Nat) : Int)).toNat, by omega⟩
  have h480 := roundRatio_one_ge_480 m (by omega)
  rw [hm, round_natCast]
  split
  · rfl
  · simp only [ge, decide_eq_true_eq]
    omega

theorem floorTest_lt (x : Nat) (hx : roundRatio x 1 < 440 * 2 ^ 149) :
    ((fin (roundRatio x 1 : Nat)).add (ofInt 40)).ge (ofInt 480) = false := by
  rw [ofInt_40, ofInt_480]
  show (round ((roundRatio x 1 : Nat) + ((40 * 2 ^ 149 : Nat) : Int))).ge _ = false
  have hm : ((roundRatio x 1 : Nat) : Int) + ((40 * 2 ^ 149 : Nat) : Int)
      = ((roundRatio x 1 + 40 * 2 ^ 149 : Nat) : Int) := by push_cast; rfl
  rw [hm, round_natCast]
  have key : roundRatio (roundRatio x 1 + 40 * 2 ^ 149) 1 < 480 * 2 ^ 149 := by
    by_cases hs : roundRatio x 1 < 2 ^ 157
    · have hrel := roundRatio_one_rel (roundRatio x 1 + 40 * 2 ^ 149)
      omega
    · have hd : 2 ^ 134 ∣ roundRatio x 1 := roundRatio_one_grid x (by omega)
      have hd2 : 2 ^ 134 ∣ roundRatio x 1 + 40 * 2 ^ 149 := by
        refine dvd_add hd ?_
        exact ⟨5 * 2 ^ 18, by norm_num⟩
      rw [roundRatio_one_exact _ (by omega) (by omega) hd2]
      omega
  rw [if_neg (by omega)]
  simp only [ge, decide_eq_false_iff_not]
  omega

/-- The floor test, computed in binary32, agrees with the exact comparison on every value that
an addition can produce. -/
theorem floorTest_exact (z : Int) :
    (((round z).add (ofInt 40)).ge (ofInt 480) = true) ↔ ¬ (round z).exactAddLt 40 480 := by
  rcases lt_or_le z 0 with h | h
  · obtain ⟨m, hm⟩ : ∃ m : Nat, z = -(m : Int) := ⟨(-z).toNat, by omega⟩
    have hpos : 0 < m := by omega
    have hr := roundRatio_one_pos m hpos
    rw [hm, round_neg_natCast m hpos]
    split
    · simp [add, ge, exactAddLt, ofInt_40, ofInt_480]
    · rw [floorTest_neg _ (by omega)]
      simp only [exactAddLt]
      constructor
      · intro hf; exact absurd hf (by simp)
      · intro hf; exfalso; apply hf; omega
  · obtain ⟨m, hm⟩ : ∃ m : Nat, z = (m : Int) := ⟨z.toNat, by omega⟩
    rw [hm, round_natCast]
    split
    · simp [add, ge, exactAddLt, ofInt_40, ofInt_480]
    · by_cases hlt : roundRatio m 1 < 440 * 2 ^ 149
      · rw [floorTest_lt m hlt]
        simp only [exactAddLt]
        constructor
        · intro hf; exact absurd hf (by simp)
        · intro hf; exfalso; apply hf; omega
      · rw [floorTest_ge _ (by omega)]
        simp only [exactAddLt]
        constructor
        · intro _; omega
        · intro _; trivial

theorem round_ne_nan (z : Int) : round z ≠ nan := by
  unfold round roundScaled
  simp only
  split
  · split <;> simp
  · simp

/-- The sum of two finite numbers is a rounded value or an infinity. -/
theorem add_fin_cases (n : Int) (y : F32) (hy : y ≠ nan) :
    (fin n).add y = pinf ∨ (fin n).add y = ninf ∨ ∃ z, (fin n).add y = round z := by
  cases y with
  | fin b => exact Or.inr (Or.inr ⟨n + b, rfl⟩)
  | pinf => exact Or.inl rfl
  | ninf => exact Or.inr (Or.inl rfl)
  | nan => exact absurd rfl hy

end F32

namespace FlappyBird

open Constants

/-! ## The physics step -/

theorem updateBirdPhysics_getElem? (g : FlappyBird) (i : Nat) :
    (updateBirdPhysics g).birds[i]? = (g.birds[i]?).map birdPhysics := by
  simp [updateBirdPhysics]

theorem birdPhysics_collided (b : Bird) : (birdPhysics b).collided = b.collided := by
  unfold birdPhysics
  simp only
  split_ifs <;> rfl

theorem birdPhysics_score (b : Bird) : (birdPhysics b).score = b.score := by
  unfold birdPhysics
  simp only
  split_ifs <;> rfl

theorem birdPhysics_dieSoundPlayed (b : Bird) :
    (birdPhysics b).dieSoundPlayed = b.dieSoundPlayed := by
  unfold birdPhysics
  simp only
  split_ifs <;> rfl

theorem birdPhysics_alive (b : Bird) :
    (birdPhysics b).alive =
      (b.alive && !(((b.y.add (b.velocity.add (F32.ofRatio 4 10))).add
        (F32.ofInt BIRD_SIZE)).ge (F32.ofInt WINDOW_HEIGHT))) := by
  unfold birdPhysics
  simp only
  split_ifs <;> simp_all

theorem birdPhysics_y (b : Bird) :
    (birdPhysics b).y =
      if (b.y.add (b.velocity.add (F32.ofRatio 4 10))).lt (F32.ofInt 0) then F32.ofInt 0
      else b.y.add (b.velocity.add (F32.ofRatio 4 10)) := by
  unfold birdPhysics
  simp only
  split_ifs <;> rfl

theorem birdPhysics_velocity (b : Bird) :
    (birdPhysics b).velocity =
      if (b.y.add (b.velocity.add (F32.ofRatio 4 10))).lt (F32.ofInt 0) then F32.ofInt 0
      else b.velocity.add (F32.ofRatio 4 10) := by
  unfold birdPhysics
  simp only
  split_ifs <;> rfl

/-! ## Claims on the physics step -/

theorem lt_zero_cases (y : F32) (h : y.lt (F32.ofInt 0) = true) :
    y = F32.ninf ∨ ∃ n, y = F32.fin n ∧ n < 0 := by
  rw [F32.ofInt_zero] at h
  cases y with
  | fin n => exact Or.inr ⟨n, rfl, by simpa [F32.lt] using h⟩
  | pinf => simp [F32.lt] at h
  | ninf => exact Or.inl rfl
  | nan => simp [F32.lt] at h

/-- A position that the ceiling clamp catches does not trigger the floor test. -/
theorem floorTest_of_lt_zero (y : F32) (h : y.lt (F32.ofInt 0) = true) :
    (y.add (F32.ofInt BIRD_SIZE)).ge (F32.ofInt WINDOW_HEIGHT) = false := by
  rcases lt_zero_cases y h with rfl | ⟨n, rfl, hn⟩
  · simp [F32.add, F32.ge, F32.ofInt_40, F32.ofInt_480, BIRD_SIZE, WINDOW_HEIGHT]
  · exact F32.floorTest_neg n hn

/-- C1: one physics tick adds the gravity constant `0.4f` to the velocity and then the new
velocity to the position.  A bird at `y = 240` with velocity `0` ends the tick with velocity
`0.4f` and `y = 240.4f`; when the flap key is handled first (velocity `-8.0f`) the tick ends
with velocity `-7.6f` and `y = 232.4f`; and for every bird whose integrated position is not
negative, `velocity' = velocity + 0.4f` and `y' = y + velocity'` (binary32 sums). -/
theorem physics_tick_integrates :
    (∀ g : FlappyBird,
      (updateBirdPhysics { g with birds := [Bird.new (F32.ofInt 240)] }).birds =
        [{ y := F32.ofRatio 2404 10, velocity := F32.ofRatio 4 10 }]) ∧
    (∀ (g : FlappyBird) (r : Nat),
      (handleKeyDown { g with birds := [Bird.new (F32.ofInt 240)],
                              gameState := GameState.ONE_PLAYER,
                              showGameOver := false } SDLK_SPACE r).birds =
        [{ y := F32.ofInt 240, velocity := (F32.ofRatio 8 1).neg }] ∧
      (updateBirdPhysics (handleKeyDown { g with birds := [Bird.new (F32.ofInt 240)],
                                                 gameState := GameState.ONE_PLAYER,
                                                 showGameOver := false } SDLK_SPACE r)).birds =
        [{ y := F32.ofRatio 2324 10, velocity := (F32.ofRatio 76 10).neg }]) ∧
    (∀ (g : FlappyBird) (i : Nat) (b : Bird), g.birds[i]? = some b →
      (b.y.add (b.velocity.add (F32.ofRatio 4 10))).lt (F32.ofInt 0) = false →
      ∃ b', (updateBirdPhysics g).birds[i]? = some b' ∧
        b'.velocity = b.velocity.add (F32.ofRatio 4 10) ∧ b'.y = b.y.add b'.velocity) := by
  refine ⟨?_, ?_, ?_⟩
  · intro g
    have h : birdPhysics (Bird.new (F32.ofInt 240)) =
        { y := F32.ofRatio 2404 10, velocity := F32.ofRatio 4 10 } := by decide
    simp [updateBirdPhysics, h]
  · intro g r
    have h2 : birdPhysics { y := F32.ofInt 240, velocity := (F32.ofRatio 8 1).neg } =
        { y := F32.ofRatio 2324 10, velocity := (F32.ofRatio 76 10).neg } := by decide
    constructor
    · simp [handleKeyDown, flapFirst, Bird.new]
    · simp [handleKeyDown, flapFirst, Bird.new, updateBirdPhysics, h2]
  · intro g i b hb hlt
    refine ⟨birdPhysics b, ?_, ?_, ?_⟩
    · rw [updateBirdPhysics_getElem?, hb]
      rfl
    · rw [birdPhysics_velocity, hlt]
      simp
    · rw [birdPhysics_y, birdPhysics_velocity, hlt]
      simp

/-- The general part of C1 at the bird of a round that was just launched. -/
theorem physics_tick_integrates_witness :
    ∃ b', (updateBirdPhysics freshRound).birds[0]? = some b' ∧
      b'.velocity = (Bird.new (F32.ofInt 240)).velocity.add (F32.ofRatio 4 10) ∧
      b'.y = (Bird.new (F32.ofInt 240)).y.add b'.velocity :=
  physics_tick_integrates.2.2 freshRound 0 (Bird.new (F32.ofInt 240)) (by decide) (by decide)

/-- C2, refuted: in the two-player round `loneSurvivor` the first bird is dead while the round
goes on, and the physics step still changes its position and its velocity. -/
theorem dead_bird_not_frozen :
    loneSurvivor.gameState = GameState.TWO_PLAYER ∧ loneSurvivor.showGameOver = false ∧
      (loneSurvivor.birds[0]?).map Bird.alive = some false ∧
      ((updateBirdPhysics loneSurvivor).birds[0]?).map Bird.y ≠
        (loneSurvivor.birds[0]?).map Bird.y ∧
      ((updateBirdPhysics loneSurvivor).birds[0]?).map Bird.velocity ≠
        (loneSurvivor.birds[0]?).map Bird.velocity := by
  set_option maxRecDepth 100000 in
  decide

/-- C2, amended: for a bird with `alive = false` the physics step keeps `alive = false` and
leaves the collided flag, the score and the sound flag unchanged, while its velocity and
position are integrated like those of a living bird: `velocity' = velocity + 0.4f`,
`y' = y + velocity'`, both set to zero when that position is negative. -/
theorem dead_bird_still_integrated (g : FlappyBird) (i : Nat) (b : Bird)
    (hb : g.birds[i]? = some b) (hdead : b.alive = false) :
    ∃ b', (updateBirdPhysics g).birds[i]? = some b' ∧
      b'.alive = false ∧ b'.collided = b.collided ∧ b'.score = b.score ∧
      b'.dieSoundPlayed = b.dieSoundPlayed ∧
      b'.velocity =
        (if (b.y.add (b.velocity.add (F32.ofRatio 4 10))).lt (F32.ofInt 0) then F32.ofInt 0
         else b.velocity.add (F32.ofRatio 4 10)) ∧
      b'.y =
        (if (b.y.add (b.velocity.add (F32.ofRatio 4 10))).lt (F32.ofInt 0) then F32.ofInt 0
         else b.y.add (b.velocity.add (F32.ofRatio 4 10))) := by
  refine ⟨birdPhysics b, ?_, ?_, birdPhysics_collided b, birdPhysics_score b,
    birdPhysics_dieSoundPlayed b, birdPhysics_velocity b, birdPhysics_y b⟩
  · rw [updateBirdPhysics_getElem?, hb]
    rfl
  · rw [birdPhysics_alive, hdead]
    rfl

/-- The amended C2 at the dead first bird of `loneSurvivor`. -/
theorem dead_bird_still_integrated_witness :
    ∃ b', (updateBirdPhysics loneSurvivor).birds[0]? = some b' ∧
      b'.alive = false ∧ b'.collided = fallen.collided ∧ b'.score = fallen.score ∧
      b'.dieSoundPlayed = fallen.dieSoundPlayed ∧
      b'.velocity =
        (if (fallen.y.add (fallen.velocity.add (F32.ofRatio 4 10))).lt (F32.ofInt 0) then
          F32.ofInt 0
         else fallen.velocity.add (F32.ofRatio 4 10)) ∧
      b'.y =
        (if (fallen.y.add (fallen.velocity.add (F32.ofRatio 4 10))).lt (F32.ofInt 0) then
          F32.ofInt 0
         else fallen.y.add (fallen.velocity.add (F32.ofRatio 4 10))) :=
  dead_bird_still_integrated loneSurvivor 0 fallen
    (by set_option maxRecDepth 100000 in decide) (by set_option maxRecDepth 100000 in decide)

/-- The integrated position of a bird with finite position and velocity is an infinity or a
rounded value, never NaN. -/
theorem integrated_cases (n v : Int) :
    (F32.fin n).add ((F32.fin v).add (F32.ofRatio 4 10)) = F32.pinf ∨
      (F32.fin n).add ((F32.fin v).add (F32.ofRatio 4 10)) = F32.ninf ∨
      ∃ z, (F32.fin n).add ((F32.fin v).add (F32.ofRatio 4 10)) = F32.round z := by
  apply F32.add_fin_cases
  rw [F32.ofRatio_4_10]
  exact F32.round_ne_nan _

/-- The floor test on the integrated position against the exact comparison on the position
the step leaves behind. -/
theorem floorTest_clamped (y : F32)
    (hy : y = F32.pinf ∨ y = F32.ninf ∨ ∃ z, y = F32.round z) :
    ((y.add (F32.ofInt BIRD_SIZE)).ge (F32.ofInt WINDOW_HEIGHT) = false) ↔
      (if y.lt (F32.ofInt 0) then F32.ofInt 0 else y).exactAddLt BIRD_SIZE WINDOW_HEIGHT := by
  have h0 : (F32.fin 0).exactAddLt BIRD_SIZE WINDOW_HEIGHT := by
    simp only [F32.exactAddLt, BIRD_SIZE, WINDOW_HEIGHT]
    omega
  rcases hy with rfl | rfl | ⟨z, hz⟩
  · simp [F32.add, F32.ge, F32.lt, F32.exactAddLt, F32.ofInt_40, F32.ofInt_480, F32.ofInt_zero,
      BIRD_SIZE, WINDOW_HEIGHT]
  · simp [F32.add, F32.ge, F32.lt, F32.exactAddLt, F32.ofInt_40, F32.ofInt_480, F32.ofInt_zero,
      BIRD_SIZE, WINDOW_HEIGHT]
  · by_cases hlt : y.lt (F32.ofInt 0) = true
    · rw [if_pos hlt, F32.ofInt_zero]
      simp [floorTest_of_lt_zero _ hlt, h0]
    · rw [if_neg hlt]
      have key := F32.floorTest_exact z
      rw [← hz] at key
      simp only [BIRD_SIZE, WINDOW_HEIGHT]
      constructor
      · intro hf
        by_contra hc
        rw [← key] at hc
        rw [hf] at hc
        exact absurd hc (by simp)
      · intro he
        by_contra hc
        have ht : (y.add (F32.ofInt 40)).ge (F32.ofInt 480) = true := by
          simpa using hc
        exact (key.mp ht) he

/-- The position the step leaves behind is not negative, unless it is NaN. -/
theorem clamped_nonneg (y : F32) (hy : y ≠ F32.nan) :
    (if y.lt (F32.ofInt 0) then F32.ofInt 0 else y).exactNonneg := by
  rw [F32.ofInt_zero]
  cases y with
  | fin n =>
    by_cases h : n < 0
    · simp [F32.lt, h, F32.exactNonneg]
    · simp only [F32.lt, h, decide_False, Bool.false_eq_true, if_false, F32.exactNonneg]
      omega
  | pinf => simp [F32.lt, F32.exactNonneg]
  | ninf => simp [F32.lt, F32.exactNonneg]
  | nan => exact absurd rfl hy

/-- C3: the floor check.  For a bird with finite position and velocity, after one physics step
the bird is alive exactly when it was alive before and its new position satisfies
`y' + 40 < 480` (an exact comparison); so a bird with `y' + 40 >= 480` is not alive, collided
or not.  For every bird, the step never turns a dead bird alive and changes neither the
collided flag nor the score. -/
theorem floor_check (g : FlappyBird) (i : Nat) (b : Bird) (hb : g.birds[i]? = some b) :
    ∃ b', (updateBirdPhysics g).birds[i]? = some b' ∧
      (b.y.isFinite = true → b.velocity.isFinite = true →
        ((b'.alive = true ↔ (b.alive = true ∧ b'.y.exactAddLt BIRD_SIZE WINDOW_HEIGHT)) ∧
          (¬ b'.y.exactAddLt BIRD_SIZE WINDOW_HEIGHT → b'.alive = false))) ∧
      (b.alive = false → b'.alive = false) ∧
      b'.collided = b.collided ∧ b'.score = b.score := by
  refine ⟨birdPhysics b, ?_, ?_, ?_, birdPhysics_collided b, birdPhysics_score b⟩
  · rw [updateBirdPhysics_getElem?, hb]
    rfl
  · intro hy hv
    obtain ⟨n, hn⟩ : ∃ n, b.y = F32.fin n := by
      cases h : b.y <;> simp_all [F32.isFinite]
    obtain ⟨v, hv'⟩ : ∃ v, b.velocity = F32.fin v := by
      cases h : b.velocity <;> simp_all [F32.isFinite]
    have key := floorTest_clamped _ (integrated_cases n v)
    rw [birdPhysics_alive, birdPhysics_y, hn, hv']
    rw [← key]
    cases b.alive <;>
      cases ((((F32.fin n).add ((F32.fin v).add (F32.ofRatio 4 10))).add
        (F32.ofInt BIRD_SIZE)).ge (F32.ofInt WINDOW_HEIGHT)) <;> simp
  · intro hdead
    rw [birdPhysics_alive, hdead]
    rfl

/-- C3 at the bird of `sinking`: it is alive before the step, the step takes it to the ground,
and it is not alive afterwards. -/
theorem floor_check_witness :
    ∃ b', (updateBirdPhysics sinking).birds[0]? = some b' ∧ sinkingBird.alive = true ∧
      (b'.alive = true ↔ (sinkingBird.alive = true ∧ b'.y.exactAddLt BIRD_SIZE WINDOW_HEIGHT)) ∧
      (¬ b'.y.exactAddLt BIRD_SIZE WINDOW_HEIGHT → b'.alive = false) ∧
      b'.collided = sinkingBird.collided ∧ b'.score = sinkingBird.score := by
  obtain ⟨b', h1, h2, _, h4, h5⟩ := floor_check sinking 0 sinkingBird
    (by set_option maxRecDepth 100000 in decide)
  have hy : sinkingBird.y.isFinite = true := by
    set_option maxRecDepth 100000 in decide
  have hv : sinkingBird.velocity.isFinite = true := by
    set_option maxRecDepth 100000 in decide
  have ha : sinkingBird.alive = true := by
    set_option maxRecDepth 100000 in decide
  exact ⟨b', h1, ha, (h2 hy hv).1, (h2 hy hv).2, h4, h5⟩

/-- C4: the ceiling clamp.  If the integrated position `y + (velocity + 0.4f)` is negative,
the step leaves `y' = 0` and `velocity' = 0` and does not change `alive`; and every bird with
finite position and velocity has `y' >= 0` after the step. -/
theorem ceiling_clamp (g : FlappyBird) (i : Nat) (b : Bird) (hb : g.birds[i]? = some b) :
    ∃ b', (updateBirdPhysics g).birds[i]? = some b' ∧
      ((b.y.add (b.velocity.add (F32.ofRatio 4 10))).lt (F32.ofInt 0) = true →
        b'.y = F32.fin 0 ∧ b'.velocity = F32.fin 0 ∧ b'.alive = b.alive) ∧
      (b.y.isFinite = true → b.velocity.isFinite = true → b'.y.exactNonneg) := by
  refine ⟨birdPhysics b, ?_, ?_, ?_⟩
  · rw [updateBirdPhysics_getElem?, hb]
    rfl
  · intro hlt
    refine ⟨?_, ?_, ?_⟩
    · rw [birdPhysics_y, if_pos hlt, F32.ofInt_zero]
    · rw [birdPhysics_velocity, if_pos hlt, F32.ofInt_zero]
    · rw [birdPhysics_alive, floorTest_of_lt_zero _ hlt]
      simp
  · intro hy hv
    obtain ⟨n, hn⟩ : ∃ n, b.y = F32.fin n := by
      cases h : b.y <;> simp_all [F32.isFinite]
    obtain ⟨v, hv'⟩ : ∃ v, b.velocity = F32.fin v := by
      cases h : b.velocity <;> simp_all [F32.isFinite]
    have hne : (F32.fin n).add ((F32.fin v).add (F32.ofRatio 4 10)) ≠ F32.nan := by
      rcases integrated_cases n v with h | h | ⟨z, h⟩ <;> rw [h]
      · simp
      · simp
      · exact F32.round_ne_nan z
    rw [birdPhysics_y, hn, hv']
    generalize (F32.fin n).add ((F32.fin v).add (F32.ofRatio 4 10)) = y1 at hne ⊢
    exact clamped_nonneg y1 hne

/-- C4 at the bird of `climber`, whose integrated position is negative. -/
theorem ceiling_clamp_witness :
    ∃ b', (updateBirdPhysics climber).birds[0]? = some b' ∧
      b'.y = F32.fin 0 ∧ b'.velocity = F32.fin 0 ∧ b'.alive = climbing.alive ∧
      b'.y.exactNonneg := by
  obtain ⟨b', h1, h2, h3⟩ := ceiling_clamp climber 0 climbing
    (by set_option maxRecDepth 100000 in decide)
  have hlt : (climbing.y.add (climbing.velocity.add (F32.ofRatio 4 10))).lt (F32.ofInt 0)
      = true := by
    set_option maxRecDepth 100000 in decide
  have hy : climbing.y.isFinite = true := by
    set_option maxRecDepth 100000 in decide
  have hv : climbing.velocity.isFinite = true := by
    set_option maxRecDepth 100000 in decide
  exact ⟨b', h1, (h2 hlt).1, (h2 hlt).2.1, (h2 hlt).2.2, h3 hy hv⟩

end FlappyBird

/-! ## The pipe step -/

theorem SDL_HasIntersection_iff (A B : SDL_Rect) :
    SDL_HasIntersection A B = true ↔ overlapsWithArea A B := by
  unfold SDL_HasIntersection overlapsWithArea
  split_ifs with h1 h2 h3
  · simp only [Bool.false_eq_true, false_iff, not_and, not_lt]
    omega
  · simp only [Bool.false_eq_true, false_iff, not_and, not_lt]
    omega
  · simp only [Bool.false_eq_true, false_iff, not_and, not_lt]
    omega
  · simp only [true_iff]
    omega

namespace FlappyBird

open Constants

/-- One pipe's effect on one bird in `updatePipes` -/
theorem stepBird_fields (it : Pipe) (j : Nat) (b : Bird) :
    let c := if inScoringWindow it then scoreBird (collideBird it j b) else collideBird it j b
    c.y = b.y ∧ c.velocity = b.velocity ∧ c.alive = b.alive ∧
      c.dieSoundPlayed = b.dieSoundPlayed ∧
      c.collided = (b.collided || (b.alive && hitsPipe it j b)) ∧
      c.score = b.score + (if b.alive = true ∧ inScoringWindow it = true then 1 else 0) := by
  intro c
  obtain ⟨y, v, a, cl, d, s⟩ := b
  simp only [c, scoreBird, collideBird]
  cases a <;> cases cl <;> cases hitsPipe it j ⟨y, v, _, _, d, s⟩ <;>
    cases inScoringWindow it <;> simp

theorem collideBirds_getElem? (it : Pipe) (bs : List Bird) (i j : Nat) :
    (collideBirds it i bs)[j]? = (bs[j]?).map (collideBird it (i + j)) := by
  induction bs generalizing i j with
  | nil => simp [collideBirds]
  | cons b rest ih =>
    cases j with
    | zero => simp [collideBirds]
    | succ j =>
      simp only [collideBirds, List.getElem?_cons_succ]
      rw [ih (i + 1) j]
      have e : i + 1 + j = i + (j + 1) := by omega
      rw [e]

theorem scoreBirds_getElem? (it : Pipe) (bs : List Bird) (j : Nat) :
    (scoreBirds it bs)[j]? =
      (bs[j]?).map (fun b => if inScoringWindow it then scoreBird b else b) := by
  unfold scoreBirds
  split <;> simp

theorem hitsPipe_congr (it : Pipe) (j : Nat) (b c : Bird) (h : c.y = b.y) :
    hitsPipe it j c = hitsPipe it j b := by
  simp [hitsPipe, birdRect, h]

/-- The effect of the pipe loop on one bird: position, velocity, `alive` and the sound flag are
untouched, `collided` is raised when the bird is alive and some scrolled pipe is hit, and the
score grows by the number of scrolled pipes in the scoring window when the bird is alive. -/
theorem updatePipesLoop_bird (ps : List Pipe) (bs : List Bird) (j : Nat) (b : Bird)
    (hb : bs[j]? = some b) :
    ∃ b', (updatePipesLoop ps bs).2[j]? = some b' ∧ b'.y = b.y ∧ b'.velocity = b.velocity ∧
      b'.alive = b.alive ∧ b'.dieSoundPlayed = b.dieSoundPlayed ∧
      b'.collided =
        (b.collided || (b.alive && ps.any (fun p => hitsPipe { p with x := p.x - 2 } j b))) ∧
      b'.score = b.score +
        (if b.alive then ((ps.countP (fun p => inScoringWindow { p with x := p.x - 2 }) : Nat) : Int)
         else 0) := by
  induction ps generalizing bs b with
  | nil => exact ⟨b, by simpa [updatePipesLoop] using hb, rfl, rfl, rfl, rfl, by simp, by simp⟩
  | cons p rest ih =>
    obtain ⟨f1, f2, f3, f4, f5, f6⟩ := stepBird_fields { p with x := p.x - 2 } j b
    have h1 : (scoreBirds { p with x := p.x - 2 }
        (collideBirds { p with x := p.x - 2 } 0 bs))[j]? =
        some (if inScoringWindow { p with x := p.x - 2 } then
          scoreBird (collideBird { p with x := p.x - 2 } j b)
          else collideBird { p with x := p.x - 2 } j b) := by
      rw [scoreBirds_getElem?, collideBirds_getElem?, hb]
      simp
    obtain ⟨b', e1, e2, e3, e4, e5, e6, e7⟩ := ih _ _ h1
    have hy : ∀ q : Pipe, hitsPipe q j (if inScoringWindow { p with x := p.x - 2 } then
        scoreBird (collideBird { p with x := p.x - 2 } j b)
        else collideBird { p with x := p.x - 2 } j b) = hitsPipe q j b :=
      fun q => hitsPipe_congr q j _ _ f1
    refine ⟨b', ?_, e2.trans f1, e3.trans f2, e4.trans f3, e5.trans f4, ?_, ?_⟩
    · simpa [updatePipesLoop] using e1
    · rw [e6, f5, f3]
      simp only [hy, List.any_cons]
      cases b.alive <;> cases b.collided <;>
        cases hitsPipe { p with x := p.x - 2 } j b <;> simp
    · rw [e7, f6, f3]
      simp only [List.countP_cons]
      cases b.alive
      · simp
      · cases inScoringWindow { p with x := p.x - 2 }
        · simp
        · simp
          omega

theorem updatePipes_bird (g : FlappyBird) (j : Nat) (b : Bird) (hb : g.birds[j]? = some b) :
    ∃ b', (updatePipes g).birds[j]? = some b' ∧ b'.y = b.y ∧ b'.velocity = b.velocity ∧
      b'.alive = b.alive ∧ b'.dieSoundPlayed = b.dieSoundPlayed ∧
      b'.collided =
        (b.collided || (b.alive && g.pipes.any (fun p => hitsPipe { p with x := p.x - 2 } j b))) ∧
      b'.score = b.score +
        (if b.alive then
          ((g.pipes.countP (fun p => inScoringWindow { p with x := p.x - 2 }) : Nat) : Int)
         else 0) :=
  updatePipesLoop_bird g.pipes g.birds j b hb

/-! ## Claims on the pipe step -/

theorem birdRect_eq (i : Nat) (b : Bird) :
    birdRect i b = ⟨160 + 80 * (i : Int), b.y.toInt, 40, 40⟩ := by
  simp only [birdRect, WINDOW_WIDTH, BIRD_SPACING, BIRD_SIZE]
  congr 1
  omega

theorem topPipe_eq (p : Pipe) : topPipe p = ⟨p.x, 0, 50, p.gapY - 75⟩ := by
  simp only [topPipe, PIPE_WIDTH, PIPE_GAP]
  congr 1

theorem bottomPipe_eq (p : Pipe) :
    bottomPipe p = ⟨p.x, p.gapY + 75, 50, 480 - (p.gapY + 75)⟩ := by
  simp only [bottomPipe, PIPE_WIDTH, PIPE_GAP, WINDOW_HEIGHT]
  congr 1

theorem hitsPipe_iff (p : Pipe) (i : Nat) (b : Bird) :
    hitsPipe p i b = true ↔
      (overlapsWithArea ⟨160 + 80 * (i : Int), b.y.toInt, 40, 40⟩ ⟨p.x, 0, 50, p.gapY - 75⟩ ∨
        overlapsWithArea ⟨160 + 80 * (i : Int), b.y.toInt, 40, 40⟩
          ⟨p.x, p.gapY + 75, 50, 480 - (p.gapY + 75)⟩) := by
  unfold hitsPipe
  rw [Bool.or_eq_true, SDL_HasIntersection_iff, SDL_HasIntersection_iff, birdRect_eq,
    topPipe_eq, bottomPipe_eq]

theorem hitsPipe_clear (p : Pipe) (i : Nat) (b : Bird)
    (h : (p.gapY - 75 ≤ b.y.toInt ∧ b.y.toInt + 40 ≤ p.gapY + 75) ∨
      (p.x + 50 ≤ 160 + 80 * (i : Int) ∨ 160 + 80 * (i : Int) + 40 ≤ p.x)) :
    hitsPipe p i b = false := by
  rw [← Bool.not_eq_true, hitsPipe_iff]
  unfold overlapsWithArea
  simp only
  omega

/-- C5: the collision rule of one pipe step.  An alive bird with index `i` that has not collided
yet becomes collided exactly when some pipe, scrolled by 2, has its top rectangle
`{x, 0, 50, gapY - 75}` or its bottom rectangle `{x, gapY + 75, 50, 480 - (gapY + 75)}`
overlapping the bird rectangle `{160 + 80 * i, trunc(y), 40, 40}` with positive area.  A pipe
whose gap holds the bird rectangle vertically, or which does not overlap the lane of the bird
horizontally, does not mark the bird, and a bird with `alive = false` is never marked. -/
theorem collision_rule (g : FlappyBird) (i : Nat) (b : Bird) (hb : g.birds[i]? = some b) :
    ∃ b', (updatePipes g).birds[i]? = some b' ∧
      (b.alive = true → b.collided = false →
        (b'.collided = true ↔ ∃ p ∈ g.pipes,
          overlapsWithArea ⟨160 + 80 * (i : Int), b.y.toInt, 40, 40⟩
              ⟨p.x - 2, 0, 50, p.gapY - 75⟩ ∨
            overlapsWithArea ⟨160 + 80 * (i : Int), b.y.toInt, 40, 40⟩
              ⟨p.x - 2, p.gapY + 75, 50, 480 - (p.gapY + 75)⟩)) ∧
      (∀ p : Pipe,
        ((p.gapY - 75 ≤ b.y.toInt ∧ b.y.toInt + 40 ≤ p.gapY + 75) ∨
          (p.x - 2 + 50 ≤ 160 + 80 * (i : Int) ∨ 160 + 80 * (i : Int) + 40 ≤ p.x - 2)) →
        hitsPipe { p with x := p.x - 2 } i b = false) ∧
      (b.collided = false →
        (∀ p ∈ g.pipes,
          (p.gapY - 75 ≤ b.y.toInt ∧ b.y.toInt + 40 ≤ p.gapY + 75) ∨
            (p.x - 2 + 50 ≤ 160 + 80 * (i : Int) ∨ 160 + 80 * (i : Int) + 40 ≤ p.x - 2)) →
        b'.collided = false) ∧
      (b.alive = false → b'.collided = b.collided) := by
  obtain ⟨b', h1, _, _, _, _, hc, _⟩ := updatePipes_bird g i b hb
  refine ⟨b', h1, ?_, ?_, ?_, ?_⟩
  · intro ha hn
    rw [hc, ha, hn]
    simp only [Bool.false_or, Bool.true_and, List.any_eq_true]
    constructor
    · rintro ⟨p, hp, hit⟩
      exact ⟨p, hp, (hitsPipe_iff _ i b).mp hit⟩
    · rintro ⟨p, hp, hit⟩
      exact ⟨p, hp, (hitsPipe_iff { p with x := p.x - 2 } i b).mpr hit⟩
  · intro p hp
    exact hitsPipe_clear { p with x := p.x - 2 } i b hp
  · intro hn hall
    rw [hc, hn]
    simp only [Bool.false_or, Bool.and_eq_false_imp, List.any_eq_false]
    intro _ p hp
    rw [hitsPipe_clear { p with x := p.x - 2 } i b (hall p hp)]
    simp
  · intro hd
    rw [hc, hd]
    simp

/-- C5 at the bird of a round that was just launched: the only pipe is far to the right. -/
theorem collision_rule_witness :
    ∃ b', (updatePipes freshRound).birds[0]? = some b' ∧ b'.collided = false := by
  obtain ⟨b', h1, _, _, h4, _⟩ :=
    collision_rule freshRound 0 (Bird.new (F32.ofInt 240)) (by decide)
  refine ⟨b', h1, h4 (by decide) ?_⟩
  intro p hp
  have hp' : p = ⟨640, 57⟩ := by
    have : freshRound.pipes = [⟨640, 57⟩] := by decide
    rw [this] at hp
    simpa using hp
  subst hp'
  right; right
  norm_num

/-- C6, refuted: against a pipe with gap centre 200 that overlaps the lane, the bird rectangle
spanning `y = 50..90` lies inside the top pipe (which spans `y = 0..125`); the collision test
reports a collision, and the pipe step marks the bird. -/
theorem bird_above_gap_collides :
    hitsPipe ⟨160, 200⟩ 0 { y := F32.ofInt 50, velocity := F32.ofInt 0 } = true ∧
      birdRect 0 { y := F32.ofInt 50, velocity := F32.ofInt 0 } = ⟨160, 50, 40, 40⟩ ∧
      topPipe ⟨160, 200⟩ = ⟨160, 0, 50, 125⟩ ∧
      ((updatePipes { freshRound with
          pipes := [⟨162, 200⟩]
          birds := [{ y := F32.ofInt 50, velocity := F32.ofInt 0 }] }).birds.map
        Bird.collided) = [true] := by
  decide

/-- C6, amended: against a pipe with gap centre 200 whose extent `x .. x + 50` overlaps the
lane of the bird, the collision test reports a collision for the bird rectangle spanning
`y = 50..90`, no collision for `y = 130..170`, and a collision for `y = 100..140`. -/
theorem gap_200_scenario (x : Int) (i : Nat) (b : Bird)
    (h1 : 160 + 80 * (i : Int) < x + 50) (h2 : x < 160 + 80 * (i : Int) + 40) :
    (b.y.toInt = 50 → hitsPipe ⟨x, 200⟩ i b = true) ∧
      (b.y.toInt = 130 → hitsPipe ⟨x, 200⟩ i b = false) ∧
      (b.y.toInt = 100 → hitsPipe ⟨x, 200⟩ i b = true) := by
  refine ⟨?_, ?_, ?_⟩
  · intro hy
    rw [hitsPipe_iff]
    unfold overlapsWithArea
    simp only [hy]
    omega
  · intro hy
    apply hitsPipe_clear
    left
    simp only [hy]
    omega
  · intro hy
    rw [hitsPipe_iff]
    unfold overlapsWithArea
    simp only [hy]
    omega

/-- The amended C6 at the first lane with the pipe exactly on it. -/
theorem gap_200_scenario_witness :
    hitsPipe ⟨160, 200⟩ 0 { y := F32.ofInt 50, velocity := F32.ofInt 0 } = true ∧
      hitsPipe ⟨160, 200⟩ 0 { y := F32.ofInt 130, velocity := F32.ofInt 0 } = false ∧
      hitsPipe ⟨160, 200⟩ 0 { y := F32.ofInt 100, velocity := F32.ofInt 0 } = true :=
  ⟨(gap_200_scenario 160 0 { y := F32.ofInt 50, velocity := F32.ofInt 0 }
      (by decide) (by decide)).1 (by decide),
    (gap_200_scenario 160 0 { y := F32.ofInt 130, velocity := F32.ofInt 0 }
      (by decide) (by decide)).2.1 (by decide),
    (gap_200_scenario 160 0 { y := F32.ofInt 100, velocity := F32.ofInt 0 }
      (by decide) (by decide)).2.2 (by decide)⟩

theorem inScoringWindow_scrolled (p : Pipe) :
    inScoringWindow { p with x := p.x - 2 } =
      decide (158 ≤ p.x - 2 + 50 ∧ p.x - 2 + 50 < 160) := by
  simp only [inScoringWindow, PIPE_WIDTH, WINDOW_WIDTH]
  rw [Bool.eq_iff_iff]
  simp only [Bool.and_eq_true, decide_eq_true_eq]
  omega

/-- C7: the scoring rule of one pipe step.  The score of an alive bird grows by the number of
pipes whose right edge, after scrolling, satisfies `158 <= x + 50 < 160`, whatever its
collided flag and its index; the score of a bird with `alive = false` does not change; and
when no pipe is in the window no score changes. -/
theorem scoring_rule (g : FlappyBird) (i : Nat) (b : Bird) (hb : g.birds[i]? = some b) :
    ∃ b', (updatePipes g).birds[i]? = some b' ∧ b'.alive = b.alive ∧
      (b.alive = true → b'.score = b.score +
        ((g.pipes.countP (fun p => decide (158 ≤ p.x - 2 + 50 ∧ p.x - 2 + 50 < 160)) : Nat) :
          Int)) ∧
      (b.alive = false → b'.score = b.score) ∧
      ((∀ p ∈ g.pipes, ¬ (158 ≤ p.x - 2 + 50 ∧ p.x - 2 + 50 < 160)) → b'.score = b.score) := by
  obtain ⟨b', h1, _, _, ha, _, _, hs⟩ := updatePipes_bird g i b hb
  have hfun : (fun p : Pipe => inScoringWindow { p with x := p.x - 2 }) =
      (fun p : Pipe => decide (158 ≤ p.x - 2 + 50 ∧ p.x - 2 + 50 < 160)) :=
    funext inScoringWindow_scrolled
  rw [hfun] at hs
  refine ⟨b', h1, ha, ?_, ?_, ?_⟩
  · intro hal
    rw [hs, if_pos hal]
  · intro hd
    rw [hs, hd]
    simp
  · intro hnone
    have hz : g.pipes.countP (fun p => decide (158 ≤ p.x - 2 + 50 ∧ p.x - 2 + 50 < 160)) = 0 := by
      rw [List.countP_eq_zero]
      intro p hp
      simpa using hnone p hp
    rw [hs, hz]
    split <;> simp

/-- C7 at a state whose only pipe enters the scoring window in this step. -/
theorem scoring_rule_witness :
    ∃ b', (updatePipes { freshRound with pipes := [⟨110, 200⟩] }).birds[0]? = some b' ∧
      b'.alive = true ∧ b'.score = 0 + 1 := by
  obtain ⟨b', h1, h2, h3, _, _⟩ :=
    scoring_rule { freshRound with pipes := [⟨110, 200⟩] } 0 (Bird.new (F32.ofInt 240))
      (by decide)
  exact ⟨b', h1, h2, h3 (by decide)⟩

theorem window_on_path (gapY : Int) (t : Nat) :
    inScoringWindow ⟨640 - 2 * (t : Int), gapY⟩ = true ↔ t = 266 := by
  simp only [inScoringWindow, PIPE_WIDTH, WINDOW_WIDTH, Bool.and_eq_true, decide_eq_true_eq]
  omega

theorem updatePipes_pipes_nil (g : FlappyBird) (h : g.pipes = []) :
    (updatePipes g).pipes = [] := by
  simp [updatePipes, h, updatePipesLoop]

theorem updatePipes_pipes_single (g : FlappyBird) (p : Pipe) (h : g.pipes = [p]) :
    (updatePipes g).pipes =
      if p.x - 2 + PIPE_WIDTH < 0 then [] else [{ p with x := p.x - 2 }] := by
  simp only [updatePipes, h, updatePipesLoop]

theorem pipeSteps_single (g : FlappyBird) (gapY : Int) (hp : g.pipes = [⟨640, gapY⟩])
    (n : Nat) :
    (pipeSteps n g).pipes = (if n ≤ 345 then [⟨640 - 2 * (n : Int), gapY⟩] else []) ∧
      ∀ (i : Nat) (b : Bird), g.birds[i]? = some b →
        ∃ b', (pipeSteps n g).birds[i]? = some b' ∧ b'.alive = b.alive ∧
          b'.score = b.score + (if b.alive = true ∧ 266 ≤ n then 1 else 0) := by
  induction n with
  | zero =>
    refine ⟨by simp [pipeSteps, hp], ?_⟩
    intro i b hb
    exact ⟨b, hb, rfl, by simp⟩
  | succ n ih =>
    obtain ⟨ihp, ihb⟩ := ih
    constructor
    · show (updatePipes (pipeSteps n g)).pipes = _
      by_cases hn : n ≤ 345
      · rw [if_pos hn] at ihp
        rw [updatePipes_pipes_single _ _ ihp]
        have hx : (640 : Int) - 2 * ((n + 1 : Nat) : Int) = 640 - 2 * (n : Int) - 2 := by
          push_cast
          omega
        rw [hx]
        simp only [PIPE_WIDTH]
        by_cases hn' : n + 1 ≤ 345
        · rw [if_pos hn', if_neg (by omega)]
        · rw [if_neg hn', if_pos (by omega)]
      · rw [if_neg hn] at ihp
        rw [updatePipes_pipes_nil _ ihp, if_neg (by omega)]
    · intro i b hb
      obtain ⟨b1, e1, e2, e3⟩ := ihb i b hb
      obtain ⟨b', f1, _, _, f2, _, _, f3⟩ := updatePipes_bird (pipeSteps n g) i b1 e1
      refine ⟨b', f1, f2.trans e2, ?_⟩
      rw [f3, e3, e2]
      by_cases hn : n ≤ 345
      · rw [if_pos hn] at ihp
        rw [ihp]
        simp only [List.countP_cons, List.countP_nil, zero_add]
        have hw := window_on_path gapY (n + 1)
        have hx : (640 : Int) - 2 * ((n + 1 : Nat) : Int) = 640 - 2 * (n : Int) - 2 := by
          push_cast
          omega
        rw [hx] at hw
        by_cases h266 : n + 1 = 266
        · rw [hw.mpr h266]
          cases b.alive <;> simp
          omega
        · have hf : inScoringWindow ⟨640 - 2 * (n : Int) - 2, gapY⟩ = false := by
            rw [← Bool.not_eq_true, hw]
            exact h266
          rw [hf]
          cases b.alive <;> simp
          omega
      · rw [if_neg hn] at ihp
        rw [ihp]
        cases b.alive <;> simp
        omega

theorem startGame_pipes (s : FlappyBird) (r : Nat) :
    ∃ gapY, (startGame s r).pipes = s.pipes ++ [⟨640, gapY⟩] :=
  ⟨_, rfl⟩

theorem spawnPipe_pipes_cases (s : FlappyBird) (r : Nat) :
    (spawnPipe s r).pipes = s.pipes ∨ ∃ gapY, (spawnPipe s r).pipes = s.pipes ++ [⟨640, gapY⟩] := by
  unfold spawnPipe
  split
  · exact Or.inr ⟨_, rfl⟩
  · exact Or.inl rfl

/-- C8: a pipe is scored exactly once.  The launch and the spawn rule create their pipe at
`x = 640`.  Such a pipe, scrolled by 2 per tick, satisfies the scoring-window condition on
exactly one tick, the 266th, when `x = 108`; it stays in the list up to tick 345 and is erased
in tick 346; and after `n` pipe steps every bird has kept its `alive` flag and an alive bird has
gained exactly one point if `n >= 266` and none before, so later ticks never score the pipe
again. -/
theorem scored_once (g : FlappyBird) (gapY : Int) (hp : g.pipes = [⟨640, gapY⟩]) (n : Nat) :
    (∀ (s : FlappyBird) (r : Nat), ∃ y, (startGame s r).pipes = s.pipes ++ [⟨640, y⟩]) ∧
      (∀ (s : FlappyBird) (r : Nat),
        (spawnPipe s r).pipes = s.pipes ∨ ∃ y, (spawnPipe s r).pipes = s.pipes ++ [⟨640, y⟩]) ∧
      (∀ t : Nat, inScoringWindow ⟨640 - 2 * (t : Int), gapY⟩ = true ↔ t = 266) ∧
      (∀ t : Nat, inScoringWindow ⟨640 - 2 * (t : Int), gapY⟩ = true ↔
        640 - 2 * (t : Int) = 108) ∧
      (pipeSteps n g).pipes = (if n ≤ 345 then [⟨640 - 2 * (n : Int), gapY⟩] else []) ∧
      ∀ (i : Nat) (b : Bird), g.birds[i]? = some b →
        ∃ b', (pipeSteps n g).birds[i]? = some b' ∧ b'.alive = b.alive ∧
          b'.score = b.score + (if b.alive = true ∧ 266 ≤ n then 1 else 0) := by
  refine ⟨startGame_pipes, spawnPipe_pipes_cases, window_on_path gapY, ?_,
    pipeSteps_single g gapY hp n⟩
  intro t
  rw [window_on_path]
  omega

/-- C8 at a round that was just launched, after 300 pipe steps. -/
theorem scored_once_witness :
    (pipeSteps 300 freshRound).pipes = [⟨40, 57⟩] ∧
      ∃ b', (pipeSteps 300 freshRound).birds[0]? = some b' ∧ b'.alive = true ∧
        b'.score = 1 := by
  obtain ⟨_, _, _, _, h3, h4⟩ := scored_once freshRound 57 (by decide) 300
  obtain ⟨b', e1, e2, e3⟩ := h4 0 (Bird.new (F32.ofInt 240)) (by decide)
  refine ⟨?_, b', e1, e2, ?_⟩
  · rw [h3]
    norm_num
  · rw [e3]
    decide

/-! ## Frames and keys -/

theorem spawnPipe_birds (g : FlappyBird) (r : Nat) : (spawnPipe g r).birds = g.birds := by
  unfold spawnPipe
  split <;> rfl

theorem updateGameOver_birds (g : FlappyBird) : (updateGameOver g).birds = g.birds := by
  unfold updateGameOver
  split
  · split <;> rfl
  · rfl
  · rfl

theorem dieSoundSweep_collided (b : Bird) : (dieSoundSweep b).collided = b.collided := by
  unfold dieSoundSweep
  split <;> rfl

/-- The birds after a frame that runs the simulation. -/
theorem update_birds (g : FlappyBird) (r : Nat)
    (h : ¬ (g.gameState = GameState.MENU ∨ g.gameState = GameState.INFO ∨
      g.gameState = GameState.TWO_PLAYER_WAITING ∨
      g.gameState = GameState.ONE_PLAYER_WAITING ∨ g.showGameOver = true)) :
    (update g r).birds = (updatePipes (updateBirdPhysics g)).birds.map dieSoundSweep := by
  unfold update
  rw [if_neg h]
  simp only
  split
  · split
    · simp only [updateGameOver_birds, spawnPipe_birds]
    · simp only [spawnPipe_birds]
  · simp only [spawnPipe_birds]

theorem update_collided (g : FlappyBird) (r : Nat) (i : Nat) (b : Bird)
    (hb : g.birds[i]? = some b) (hc : b.collided = true) :
    ∃ b', (update g r).birds[i]? = some b' ∧ b'.collided = true := by
  by_cases h : (g.gameState = GameState.MENU ∨ g.gameState = GameState.INFO ∨
      g.gameState = GameState.TWO_PLAYER_WAITING ∨
      g.gameState = GameState.ONE_PLAYER_WAITING ∨ g.showGameOver = true)
  · refine ⟨b, ?_, hc⟩
    unfold update
    rw [if_pos h]
    exact hb
  · have h1 : (updateBirdPhysics g).birds[i]? = some (birdPhysics b) := by
      rw [updateBirdPhysics_getElem?, hb]
      rfl
    obtain ⟨b2, e1, _, _, _, _, e2, _⟩ := updatePipes_bird _ i _ h1
    refine ⟨dieSoundSweep b2, ?_, ?_⟩
    · rw [update_birds g r h, List.getElem?_map, e1]
      rfl
    · rw [dieSoundSweep_collided, e2, birdPhysics_collided, hc]
      rfl

theorem flapFirst_collided (g : FlappyBird) (key : Int) (i : Nat) (b : Bird)
    (hb : g.birds[i]? = some b) :
    ∃ b', (flapFirst g key).birds[i]? = some b' ∧ b'.collided = b.collided := by
  unfold flapFirst
  split
  · rename_i b0 rest hl
    split
    · cases i with
      | zero =>
        rw [hl] at hb
        simp only [List.getElem?_cons_zero, Option.some.injEq] at hb
        exact ⟨{ b0 with velocity := (F32.ofRatio 8 1).neg }, by simp, by rw [← hb]⟩
      | succ j =>
        rw [hl] at hb
        exact ⟨b, by simpa using hb, rfl⟩
    · exact ⟨b, hb, rfl⟩
  · exact ⟨b, hb, rfl⟩

theorem flapSecond_collided (g : FlappyBird) (key : Int) (i : Nat) (b : Bird)
    (hb : g.birds[i]? = some b) :
    ∃ b', (flapSecond g key).birds[i]? = some b' ∧ b'.collided = b.collided := by
  unfold flapSecond
  split
  · rename_i b0 b1 rest hl
    split
    · rw [hl] at hb
      match i, hb with
      | 0, hb => exact ⟨b, by simpa using hb, rfl⟩
      | 1, hb =>
        simp only [List.getElem?_cons_succ, List.getElem?_cons_zero, Option.some.injEq] at hb
        exact ⟨{ b1 with velocity := (F32.ofRatio 8 1).neg }, by simp, by rw [← hb]⟩
      | j + 2, hb => exact ⟨b, by simpa using hb, rfl⟩
    · exact ⟨b, hb, rfl⟩
  · exact ⟨b, hb, rfl⟩

theorem flapFirst_flags (g : FlappyBird) (key : Int) :
    (flapFirst g key).showGameOver = g.showGameOver ∧
      (flapFirst g key).gameState = g.gameState := by
  unfold flapFirst
  split
  · split <;> exact ⟨rfl, rfl⟩
  · exact ⟨rfl, rfl⟩

theorem flapSecond_flags (g : FlappyBird) (key : Int) :
    (flapSecond g key).showGameOver = g.showGameOver ∧
      (flapSecond g key).gameState = g.gameState := by
  unfold flapSecond
  split
  · split <;> exact ⟨rfl, rfl⟩
  · exact ⟨rfl, rfl⟩

/-- C9: the collided flag is monotonic within a round.  In a play mode, a bird whose collided
flag is set still has it set after a simulation tick, and after a key-down event that does not
trigger a reset (the launch key while the game-over flag is up). -/
theorem collided_monotonic (g : FlappyBird)
    (hmode : g.gameState = GameState.ONE_PLAYER ∨ g.gameState = GameState.TWO_PLAYER)
    (i : Nat) (b : Bird) (hb : g.birds[i]? = some b) (hc : b.collided = true) :
    (∀ r : Nat, ∃ b', (update g r).birds[i]? = some b' ∧ b'.collided = true) ∧
      (∀ (key : Int) (r : Nat), ¬ (g.showGameOver = true ∧ key = SDLK_SPACE) →
        ∃ b', (handleKeyDown g key r).birds[i]? = some b' ∧ b'.collided = true) := by
  refine ⟨fun r => update_collided g r i b hb hc, ?_⟩
  intro key r hno
  unfold handleKeyDown
  rcases hmode with hm | hm
  · simp only [hm]
    rw [if_neg (by rw [(flapFirst_flags g key).1]; exact hno)]
    obtain ⟨b', e1, e2⟩ := flapFirst_collided g key i b hb
    exact ⟨b', e1, e2.trans hc⟩
  · simp only [hm]
    rw [if_neg (by rw [(flapSecond_flags _ key).1, (flapFirst_flags g key).1]; exact hno)]
    obtain ⟨b1, e1, e2⟩ := flapFirst_collided g key i b hb
    obtain ⟨b', f1, f2⟩ := flapSecond_collided _ key i b1 e1
    exact ⟨b', f1, f2.trans (e2.trans hc)⟩

/-- C9 at the marked bird of `struck`: a frame, and the launch key while the round goes on. -/
theorem collided_monotonic_witness :
    (∃ b', (update struck 0).birds[0]? = some b' ∧ b'.collided = true) ∧
      (∃ b', (handleKeyDown struck SDLK_SPACE 0).birds[0]? = some b' ∧ b'.collided = true) :=
  ⟨(collided_monotonic struck (by decide) 0 struckBird (by decide) (by decide)).1 0,
    (collided_monotonic struck (by decide) 0 struckBird (by decide) (by decide)).2
      SDLK_SPACE 0 (by decide)⟩

/-- C10: the spawn rule.  `spawnPipe` appends exactly one pipe, with `x = 640`, at the end of the
list when the list is empty or `640 - x >= 170` for the last pipe; otherwise the list is
unchanged.  The pipes already in the list are kept as they are in both cases. -/
theorem spawn_rule (g : FlappyBird) (r : Nat) :
    ((g.pipes = [] ∨ ∃ back, g.pipes.getLast? = some back ∧ 640 - back.x ≥ 170) →
        (spawnPipe g r).pipes = g.pipes ++ [⟨640, (r : Int) % 180 + 75⟩]) ∧
      (¬ (g.pipes = [] ∨ ∃ back, g.pipes.getLast? = some back ∧ 640 - back.x ≥ 170) →
        (spawnPipe g r).pipes = g.pipes) ∧
      (∃ t, (spawnPipe g r).pipes = g.pipes ++ t ∧ t.length ≤ 1) := by
  have hcond : (g.pipes.isEmpty ||
      (match g.pipes.getLast? with
        | some back => decide (WINDOW_WIDTH - back.x ≥ PIPE_SPACING + PIPE_WIDTH)
        | none => false)) = true ↔
      (g.pipes = [] ∨ ∃ back, g.pipes.getLast? = some back ∧ 640 - back.x ≥ 170) := by
    simp only [Bool.or_eq_true, List.isEmpty_iff, WINDOW_WIDTH, PIPE_SPACING, PIPE_WIDTH]
    constructor
    · rintro (h | h)
      · exact Or.inl h
      · right
        cases hl : g.pipes.getLast? with
        | none => simp [hl] at h
        | some back =>
          rw [hl] at h
          refine ⟨back, rfl, ?_⟩
          simp only [decide_eq_true_eq] at h
          omega
    · rintro (h | ⟨back, hl, hge⟩)
      · exact Or.inl h
      · right
        rw [hl]
        simp only [decide_eq_true_eq]
        omega
  refine ⟨?_, ?_, ?_⟩
  · intro h
    unfold spawnPipe
    rw [if_pos (hcond.mpr h)]
    simp only [WINDOW_WIDTH, WINDOW_HEIGHT, PIPE_GAP]
    norm_num
  · intro h
    unfold spawnPipe
    rw [if_neg (fun hc => h (hcond.mp hc))]
  · unfold spawnPipe
    split
    · exact ⟨_, rfl, by simp⟩
    · exact ⟨[], by simp, by simp⟩

/-! ## Scrolling, pruning and the gap band -/

theorem updatePipesLoop_pipes (ps : List Pipe) (bs : List Bird) :
    (updatePipesLoop ps bs).1 =
      (ps.map (fun p => ({ p with x := p.x - 2 } : Pipe))).filter
        (fun p => !decide (p.x + 50 < 0)) := by
  induction ps generalizing bs with
  | nil => rfl
  | cons p rest ih =>
    simp only [updatePipesLoop, List.map_cons, List.filter_cons, PIPE_WIDTH]
    rw [ih]
    by_cases h : p.x - 2 + 50 < 0
    · simp [h]
    · simp [h]

/-- C11: scroll and pruning.  After one pipe step the pipe list is the old list with every `x`
decreased by 2 and every `gapY` unchanged, without the pipes whose new `x` satisfies
`x + 50 < 0`, in the same order; so no pipe with `x + 50 < 0` is left. -/
theorem scroll_and_prune (g : FlappyBird) :
    (updatePipes g).pipes =
        (g.pipes.map (fun p => ({ x := p.x - 2, gapY := p.gapY } : Pipe))).filter
          (fun p => !decide (p.x + 50 < 0)) ∧
      (∀ p ∈ (updatePipes g).pipes, ¬ (p.x + 50 < 0)) ∧
      (∀ p ∈ g.pipes, ¬ (p.x - 2 + 50 < 0) →
        ({ x := p.x - 2, gapY := p.gapY } : Pipe) ∈ (updatePipes g).pipes) ∧
      (∀ q ∈ (updatePipes g).pipes, ∃ p ∈ g.pipes, q = { x := p.x - 2, gapY := p.gapY }) := by
  have h : (updatePipes g).pipes =
      (g.pipes.map (fun p => ({ x := p.x - 2, gapY := p.gapY } : Pipe))).filter
        (fun p => !decide (p.x + 50 < 0)) := updatePipesLoop_pipes g.pipes g.birds
  refine ⟨h, ?_, ?_, ?_⟩
  · intro p hp
    rw [h, List.mem_filter] at hp
    simpa using hp.2
  · intro p hp hk
    rw [h, List.mem_filter]
    refine ⟨List.mem_map.mpr ⟨p, hp, rfl⟩, ?_⟩
    simpa using hk
  · intro q hq
    rw [h, List.mem_filter, List.mem_map] at hq
    obtain ⟨⟨p, hp, rfl⟩, _⟩ := hq
    exact ⟨p, hp, rfl⟩

/-- C11 on a list with one pipe that stays and one that leaves the screen. -/
theorem scroll_and_prune_witness :
    (updatePipes { freshRound with pipes := [⟨-50, 100⟩, ⟨120, 200⟩] }).pipes = [⟨118, 200⟩] := by
  rw [(scroll_and_prune _).1]
  decide

/-- C12: the gap band.  A pipe created by the spawn rule has `0 <= gapY - 75` and
`gapY + 75 <= 480`.  A pipe created by the launch has `gapY` between 50 and 279 only, and
for `rand() = 0` it has `gapY = 50`: the top rectangle then has the negative height `-25`
and the gap reaches above the screen. -/
theorem gap_band :
    (∀ (g : FlappyBird) (r : Nat), (spawnPipe g r).pipes = g.pipes ∨
      ∃ y, (spawnPipe g r).pipes = g.pipes ++ [⟨640, y⟩] ∧ 0 ≤ y - 75 ∧ y + 75 ≤ 480) ∧
    (∀ (g : FlappyBird) (r : Nat),
      ∃ y, (startGame g r).pipes = g.pipes ++ [⟨640, y⟩] ∧ 50 ≤ y ∧ y ≤ 279) ∧
    (startGame ((initial 0).reset 1) 0).pipes = [⟨640, 50⟩] ∧
    (topPipe ⟨640, 50⟩).h = -25 ∧
    ¬ (0 ≤ (50 : Int) - 75) := by
  refine ⟨?_, ?_, by decide, by decide, by decide⟩
  · intro g r
    unfold spawnPipe
    split
    · right
      refine ⟨_, rfl, ?_, ?_⟩ <;> simp only [WINDOW_HEIGHT, PIPE_GAP] <;> omega
    · exact Or.inl rfl
  · intro g r
    refine ⟨_, rfl, ?_, ?_⟩ <;> simp only [WINDOW_HEIGHT, PIPE_GAP] <;> omega

theorem midfield : (F32.ofInt WINDOW_HEIGHT).div (F32.ofRatio 2 1) = F32.ofInt 240 := by
  decide

theorem reset_one (g : FlappyBird) :
    reset g 1 =
      { g with
        birds := [{ y := F32.ofInt 240, velocity := F32.ofInt 0 }]
        pipes := []
        gameState := GameState.ONE_PLAYER_WAITING
        highScore := max g.highScore 0
        winner := -1
        buttons := [returnToMenuButton]
        showGameOver := false } := by
  simp [reset, midfield, Bird.new]

theorem reset_two (g : FlappyBird) :
    reset g 2 =
      { g with
        birds := [{ y := F32.ofInt 240, velocity := F32.ofInt 0 },
                  { y := F32.ofInt 240, velocity := F32.ofInt 0 }]
        pipes := []
        gameState := GameState.TWO_PLAYER_WAITING
        buttons := [returnToMenuButton]
        showGameOver := false } := by
  simp [reset, midfield, Bird.new]

/-- C13: the postcondition of `reset`.  For `players` 1 or 2 and any state, `reset(players)`
leaves no pipe, exactly `players` birds, each with `y = 240`, velocity 0, score 0,
`alive = true`, `collided = false`, `dieSoundPlayed = false`, the game-over flag down, and the
waiting mode of that player count. -/
theorem reset_postcondition (g : FlappyBird) (players : Int)
    (h : players = 1 ∨ players = 2) :
    (reset g players).pipes = [] ∧
      (reset g players).birds =
        List.replicate players.toNat
          { y := F32.ofInt 240, velocity := F32.ofInt 0, alive := true, collided := false,
            dieSoundPlayed := false, score := 0 } ∧
      (reset g players).showGameOver = false ∧
      (reset g players).gameState =
        (if players = 1 then GameState.ONE_PLAYER_WAITING
         else GameState.TWO_PLAYER_WAITING) := by
  rcases h with rfl | rfl
  · rw [reset_one]
    exact ⟨rfl, rfl, rfl, rfl⟩
  · rw [reset_two]
    exact ⟨rfl, rfl, rfl, rfl⟩

/-- C13 for the reset that follows a finished two-player round. -/
theorem reset_postcondition_witness :
    (reset bothGrounded 2).pipes = [] ∧
      (reset bothGrounded 2).birds =
        List.replicate (2 : Int).toNat
          { y := F32.ofInt 240, velocity := F32.ofInt 0, alive := true, collided := false,
            dieSoundPlayed := false, score := 0 } ∧
      (reset bothGrounded 2).showGameOver = false ∧
      (reset bothGrounded 2).gameState =
        (if (2 : Int) = 1 then GameState.ONE_PLAYER_WAITING
         else GameState.TWO_PLAYER_WAITING) :=
  reset_postcondition bothGrounded 2 (Or.inr rfl)

/-! ## Rounds: reset, launch, retry, outcome -/

/-- C14: the winner indicator across `reset`.  `reset(1)` sets the winner indicator to `-1`;
`reset(2)` leaves it as it was, so after a two-player round won by the first player the retry
(`reset(2)`) still shows winner `0`, not `-1`. -/
theorem reset_winner :
    (∀ g : FlappyBird, (reset g 1).winner = -1) ∧
    (∀ g : FlappyBird, (reset g 2).winner = g.winner) ∧
    (reset { bothGrounded with winner := 0 } 2).winner = 0 ∧
    (handleKeyDown { bothGrounded with winner := 0 } SDLK_SPACE 0).winner = 0 := by
  refine ⟨fun g => by rw [reset_one], fun g => by rw [reset_two], ?_, ?_⟩
  · rw [reset_two]
  · set_option maxRecDepth 100000 in
    decide

/-- C15: the postcondition of the launch.  For `n` 1 or 2, `reset(n)` followed by `startGame()`
gives exactly one pipe, at `x = 640`, exactly `n` birds, each with score 0, `alive = true`,
`collided = false`, `dieSoundPlayed = false`, `y = 240` and velocity 0, winner `-1`, and the
play mode of that player count. -/
theorem launch_postcondition (g : FlappyBird) (n : Int) (h : n = 1 ∨ n = 2) (r : Nat) :
    (∃ y, (startGame (reset g n) r).pipes = [⟨640, y⟩]) ∧
      (startGame (reset g n) r).birds =
        List.replicate n.toNat
          { y := F32.ofInt 240, velocity := F32.ofInt 0, alive := true, collided := false,
            dieSoundPlayed := false, score := 0 } ∧
      (startGame (reset g n) r).winner = -1 ∧
      (startGame (reset g n) r).gameState =
        (if n = 1 then GameState.ONE_PLAYER else GameState.TWO_PLAYER) := by
  rcases h with rfl | rfl
  · rw [reset_one]
    exact ⟨⟨_, rfl⟩, rfl, rfl, rfl⟩
  · rw [reset_two]
    exact ⟨⟨_, rfl⟩, rfl, rfl, rfl⟩

/-- C15 for a two-player launch from the menu state. -/
theorem launch_postcondition_witness :
    (∃ y, (startGame (reset (initial 0) 2) 7).pipes = [⟨640, y⟩]) ∧
      (startGame (reset (initial 0) 2) 7).birds =
        List.replicate (2 : Int).toNat
          { y := F32.ofInt 240, velocity := F32.ofInt 0, alive := true, collided := false,
            dieSoundPlayed := false, score := 0 } ∧
      (startGame (reset (initial 0) 2) 7).winner = -1 ∧
      (startGame (reset (initial 0) 2) 7).gameState =
        (if (2 : Int) = 1 then GameState.ONE_PLAYER else GameState.TWO_PLAYER) :=
  launch_postcondition (initial 0) 2 (Or.inr rfl) 7

/-- C16, refuted: in the finished one-player round `grounded` and the finished two-player round
`bothGrounded` the launch key leads to the waiting mode, not back to the play mode. -/
theorem retry_enters_waiting :
    grounded.gameState = GameState.ONE_PLAYER ∧ grounded.showGameOver = true ∧
      (handleKeyDown grounded SDLK_SPACE 0).gameState = GameState.ONE_PLAYER_WAITING ∧
      (handleKeyDown grounded SDLK_SPACE 0).gameState ≠ GameState.ONE_PLAYER ∧
      bothGrounded.gameState = GameState.TWO_PLAYER ∧ bothGrounded.showGameOver = true ∧
      (handleKeyDown bothGrounded SDLK_SPACE 0).gameState = GameState.TWO_PLAYER_WAITING ∧
      (handleKeyDown bothGrounded SDLK_SPACE 0).gameState ≠ GameState.TWO_PLAYER := by
  set_option maxRecDepth 100000 in
  decide

/-- C16, amended: with the game-over flag up in mode `ONE_PLAYER` (resp. `TWO_PLAYER`), the
launch key yields a freshly reset round in the waiting mode `ONE_PLAYER_WAITING` (resp.
`TWO_PLAYER_WAITING`): no pipe, one (resp. two) fresh birds, game-over flag down. -/
theorem retry_resets_to_waiting (g : FlappyBird) (r : Nat) (hgo : g.showGameOver = true) :
    (g.gameState = GameState.ONE_PLAYER →
      (handleKeyDown g SDLK_SPACE r).gameState = GameState.ONE_PLAYER_WAITING ∧
      (handleKeyDown g SDLK_SPACE r).birds = [{ y := F32.ofInt 240, velocity := F32.ofInt 0 }] ∧
      (handleKeyDown g SDLK_SPACE r).pipes = [] ∧
      (handleKeyDown g SDLK_SPACE r).showGameOver = false) ∧
    (g.gameState = GameState.TWO_PLAYER →
      (handleKeyDown g SDLK_SPACE r).gameState = GameState.TWO_PLAYER_WAITING ∧
      (handleKeyDown g SDLK_SPACE r).birds =
        [{ y := F32.ofInt 240, velocity := F32.ofInt 0 },
         { y := F32.ofInt 240, velocity := F32.ofInt 0 }] ∧
      (handleKeyDown g SDLK_SPACE r).pipes = [] ∧
      (handleKeyDown g SDLK_SPACE r).showGameOver = false) := by
  constructor
  · intro hm
    have h1 := flapFirst_flags g SDLK_SPACE
    have e : handleKeyDown g SDLK_SPACE r = reset (flapFirst g SDLK_SPACE) 1 := by
      unfold handleKeyDown
      simp [hm, h1.1, h1.2, hgo]
    rw [e, reset_one]
    exact ⟨rfl, rfl, rfl, rfl⟩
  · intro hm
    have h1 := flapFirst_flags g SDLK_SPACE
    have h2 := flapSecond_flags (flapFirst g SDLK_SPACE) SDLK_SPACE
    have e : handleKeyDown g SDLK_SPACE r =
        reset (flapSecond (flapFirst g SDLK_SPACE) SDLK_SPACE) 2 := by
      unfold handleKeyDown
      simp [hm, h1.1, h1.2, h2.1, h2.2, hgo]
    rw [e, reset_two]
    exact ⟨rfl, rfl, rfl, rfl⟩

/-- The amended C16 at the finished one-player round `grounded`. -/
theorem retry_resets_to_waiting_witness :
    (handleKeyDown grounded SDLK_SPACE 0).gameState = GameState.ONE_PLAYER_WAITING ∧
      (handleKeyDown grounded SDLK_SPACE 0).birds =
        [{ y := F32.ofInt 240, velocity := F32.ofInt 0 }] ∧
      (handleKeyDown grounded SDLK_SPACE 0).pipes = [] ∧
      (handleKeyDown grounded SDLK_SPACE 0).showGameOver = false :=
  (retry_resets_to_waiting grounded 0 (by set_option maxRecDepth 100000 in decide)).1
    (by set_option maxRecDepth 100000 in decide)

/-- C17: the two-player outcome.  In mode `TWO_PLAYER` with two birds of scores `a` and `b`,
`updateGameOver` sets the winner to 0 if `a > b`, to 1 if `b > a` and to `-1` if `a = b`, and
the best score to `max(h, max(a, b))`. -/
theorem two_player_outcome (g : FlappyBird) (b0 b1 : Bird) (hb : g.birds = [b0, b1])
    (hm : g.gameState = GameState.TWO_PLAYER) :
    (b0.score > b1.score → (updateGameOver g).winner = 0) ∧
      (b1.score > b0.score → (updateGameOver g).winner = 1) ∧
      (b0.score = b1.score → (updateGameOver g).winner = -1) ∧
      (updateGameOver g).highScore = max g.highScore (max b0.score b1.score) := by
  have e : updateGameOver g =
      { g with
        highScore := max g.highScore (max b0.score b1.score)
        winner := if b0.score > b1.score then 0 else if b1.score > b0.score then 1 else -1 } := by
    unfold updateGameOver
    rw [hb]
    simp [hm]
  rw [e]
  refine ⟨?_, ?_, ?_, rfl⟩
  · intro h
    simp only [if_pos h]
  · intro h
    have h' : ¬ b0.score > b1.score := by omega
    simp only [if_neg h', if_pos h]
  · intro h
    have h1 : ¬ b0.score > b1.score := by omega
    have h2 : ¬ b1.score > b0.score := by omega
    simp only [if_neg h1, if_neg h2]

/-- C17 for the scores 5 and 3 with previous best 4: the first player wins and the best score
becomes `max(4, max(5, 3))`. -/
theorem two_player_outcome_witness :
    (updateGameOver finishedDuel).winner = 0 ∧
      (updateGameOver finishedDuel).highScore = max 4 (max 5 3) :=
  ⟨(two_player_outcome finishedDuel
      { y := F32.ofInt 440, velocity := F32.ofInt 0, alive := false, score := 5 }
      { y := F32.ofInt 440, velocity := F32.ofInt 0, alive := false, score := 3 }
      rfl (by set_option maxRecDepth 100000 in decide)).1 (by decide),
    (two_player_outcome finishedDuel
      { y := F32.ofInt 440, velocity := F32.ofInt 0, alive := false, score := 5 }
      { y := F32.ofInt 440, velocity := F32.ofInt 0, alive := false, score := 3 }
      rfl (by set_option maxRecDepth 100000 in decide)).2.2.2⟩

/-- C18: the one-player outcome.  With exactly one bird of score `s`, `updateGameOver` sets the
best score to `max(h, s)` and changes neither the winner indicator nor the bird. -/
theorem one_player_outcome (g : FlappyBird) (b : Bird) (hb : g.birds = [b]) :
    (updateGameOver g).highScore = max g.highScore b.score ∧
      (updateGameOver g).winner = g.winner ∧ (updateGameOver g).birds = [b] := by
  have e : updateGameOver g = { g with highScore := max g.highScore b.score } := by
    unfold updateGameOver
    rw [hb]
  rw [e]
  exact ⟨rfl, rfl, hb⟩

/-- C18 at a finished one-player round with a bird of score 6 and previous best 4. -/
theorem one_player_outcome_witness :
    (updateGameOver finishedSolo).highScore = max 4 6 ∧
      (updateGameOver finishedSolo).winner = finishedSolo.winner ∧
      (updateGameOver finishedSolo).birds =
        [{ y := F32.ofInt 440, velocity := F32.ofInt 0, alive := false, score := 6 }] :=
  one_player_outcome finishedSolo
    { y := F32.ofInt 440, velocity := F32.ofInt 0, alive := false, score := 6 } rfl

/-! ## The frame -/

theorem simulated_flags (g : FlappyBird) (r : Nat) :
    (simulated g r).showGameOver = g.showGameOver ∧
      (simulated g r).gameState = g.gameState ∧
      (simulated g r).highScore = g.highScore ∧ (simulated g r).winner = g.winner := by
  unfold simulated spawnPipe
  split <;> exact ⟨rfl, rfl, rfl, rfl⟩

theorem simulated_birds (g : FlappyBird) (r : Nat) :
    (simulated g r).birds = (updatePipes (updateBirdPhysics g)).birds.map dieSoundSweep := by
  unfold simulated
  rw [spawnPipe_birds]

theorem dieSoundSweep_alive (b : Bird) : (dieSoundSweep b).alive = b.alive := by
  unfold dieSoundSweep
  split <;> rfl

/-- The terminal test of `update` in terms of the birds after the pipe step. -/
theorem terminal_test (g : FlappyBird) (r : Nat) :
    ((simulated g r).birds.isEmpty || (simulated g r).birds.all (fun b => !b.alive)) = true ↔
      ∀ b ∈ (updatePipes (updateBirdPhysics g)).birds, b.alive = false := by
  rw [simulated_birds]
  simp only [Bool.or_eq_true, List.isEmpty_iff, List.map_eq_nil_iff, List.all_eq_true,
    List.mem_map, forall_exists_index, and_imp, forall_apply_eq_imp_iff₂, dieSoundSweep_alive,
    Bool.not_eq_true']
  constructor
  · rintro (h | h)
    · intro b hb
      rw [h] at hb
      exact absurd hb (List.not_mem_nil b)
    · exact h
  · intro h
    exact Or.inr h

/-- A frame that runs the simulation: the simulation part, then the terminal check. -/
theorem update_running (g : FlappyBird) (r : Nat)
    (hmode : g.gameState = GameState.ONE_PLAYER ∨ g.gameState = GameState.TWO_PLAYER)
    (hgo : g.showGameOver = false) :
    update g r =
      if ((simulated g r).birds.isEmpty || (simulated g r).birds.all (fun b => !b.alive)) = true
      then { updateGameOver (simulated g r) with
             showGameOver := true, buttons := [returnToMenuButton] }
      else simulated g r := by
  have hs := (simulated_flags g r).1
  rw [hgo] at hs
  have hearly : ¬ (g.gameState = GameState.MENU ∨ g.gameState = GameState.INFO ∨
      g.gameState = GameState.TWO_PLAYER_WAITING ∨
      g.gameState = GameState.ONE_PLAYER_WAITING ∨ g.showGameOver = true) := by
    rw [hgo]
    rcases hmode with h | h <;> rw [h] <;> simp
  unfold update
  rw [if_neg hearly]
  show (if ((simulated g r).birds.isEmpty || (simulated g r).birds.all (fun b => !b.alive)) = true
      then (if (!(simulated g r).showGameOver) = true then _ else _) else _) = _
  rw [hs]
  rfl

theorem update_idle (g : FlappyBird) (r : Nat)
    (h : g.gameState = GameState.MENU ∨ g.gameState = GameState.INFO ∨
      g.gameState = GameState.TWO_PLAYER_WAITING ∨
      g.gameState = GameState.ONE_PLAYER_WAITING ∨ g.showGameOver = true) :
    update g r = g := by
  unfold update
  rw [if_pos h]

theorem updateGameOver_flags (g : FlappyBird) :
    (updateGameOver g).gameState = g.gameState := by
  unfold updateGameOver
  split
  · split <;> rfl
  · rfl
  · rfl

/-- C19: the terminal check.  In a play mode with the game-over flag down, after one frame the
flag is up exactly when every bird is not alive after the physics and pipe steps of that
frame.  When it goes up, the winner and the best score are those `updateGameOver` computes on
the state of that frame, and every later frame leaves the state as it is; while some bird is
alive the flag stays down and the frame is the simulation alone. -/
theorem terminal_check (g : FlappyBird) (r : Nat)
    (hmode : g.gameState = GameState.ONE_PLAYER ∨ g.gameState = GameState.TWO_PLAYER)
    (hgo : g.showGameOver = false) :
    ((update g r).showGameOver = true ↔
        ∀ b ∈ (updatePipes (updateBirdPhysics g)).birds, b.alive = false) ∧
      ((∀ b ∈ (updatePipes (updateBirdPhysics g)).birds, b.alive = false) →
        (update g r).winner = (updateGameOver (simulated g r)).winner ∧
        (update g r).highScore = (updateGameOver (simulated g r)).highScore ∧
        ∀ r' : Nat, update (update g r) r' = update g r) ∧
      ((∃ b ∈ (updatePipes (updateBirdPhysics g)).birds, b.alive = true) →
        (update g r).showGameOver = false ∧ update g r = simulated g r) := by
  have hu := update_running g r hmode hgo
  have ht := terminal_test g r
  have hs := (simulated_flags g r).1
  rw [hgo] at hs
  by_cases hall : ∀ b ∈ (updatePipes (updateBirdPhysics g)).birds, b.alive = false
  · rw [if_pos (ht.mpr hall)] at hu
    have hup : (update g r).showGameOver = true := by rw [hu]
    refine ⟨⟨fun _ => hall, fun _ => hup⟩, ?_, ?_⟩
    · intro _
      refine ⟨by rw [hu], by rw [hu], ?_⟩
      intro r'
      exact update_idle _ r' (Or.inr (Or.inr (Or.inr (Or.inr hup))))
    · rintro ⟨b, hb, ha⟩
      rw [hall b hb] at ha
      exact absurd ha (by simp)
  · rw [if_neg (fun h => hall (ht.mp h))] at hu
    have hdown : (update g r).showGameOver = false := by rw [hu, hs]
    refine ⟨⟨fun h => ?_, fun h => absurd h hall⟩, fun h => absurd h hall, fun _ => ⟨hdown, hu⟩⟩
    rw [hdown] at h
    exact absurd h (by simp)

/-- C19 at the frame that ends the one-player round `sinking`. -/
theorem terminal_check_witness :
    (update sinking 0).showGameOver = true ∧
      (update sinking 0).winner = (updateGameOver (simulated sinking 0)).winner ∧
      (update sinking 0).highScore = (updateGameOver (simulated sinking 0)).highScore ∧
      ∀ r' : Nat, update (update sinking 0) r' = update sinking 0 := by
  obtain ⟨h1, h2, _⟩ := terminal_check sinking 0
    (by set_option maxRecDepth 100000 in decide) (by set_option maxRecDepth 100000 in decide)
  have hall : ∀ b ∈ (updatePipes (updateBirdPhysics sinking)).birds, b.alive = false := by
    set_option maxRecDepth 100000 in decide
  exact ⟨h1.mpr hall, h2 hall⟩

/-- C20: outside active play the frame is static.  In the modes `MENU`, `INFO`,
`ONE_PLAYER_WAITING`, `TWO_PLAYER_WAITING`, and whenever the game-over flag is up, `update`
returns the state as it is. -/
theorem static_outside_play (g : FlappyBird) (r : Nat)
    (h : g.gameState = GameState.MENU ∨ g.gameState = GameState.INFO ∨
      g.gameState = GameState.ONE_PLAYER_WAITING ∨
      g.gameState = GameState.TWO_PLAYER_WAITING ∨ g.showGameOver = true) :
    update g r = g := by
  apply update_idle
  rcases h with h | h | h | h | h
  · exact Or.inl h
  · exact Or.inr (Or.inl h)
  · exact Or.inr (Or.inr (Or.inr (Or.inl h)))
  · exact Or.inr (Or.inr (Or.inl h))
  · exact Or.inr (Or.inr (Or.inr (Or.inr h)))

/-- C20 at the menu state and at the finished round `grounded`. -/
theorem static_outside_play_witness :
    update (initial 0) 3 = initial 0 ∧ update grounded 3 = grounded :=
  ⟨static_outside_play (initial 0) 3 (Or.inl rfl),
    static_outside_play grounded 3
      (Or.inr (Or.inr (Or.inr (Or.inr (by set_option maxRecDepth 100000 in decide)))))⟩

/-! ## Mouse input -/

/-- C24: `isPointInRect` is inclusive on all four edges: the point `(x, y)` is inside
`{rx, ry, w, h}` exactly when `rx <= x <= rx + w` and `ry <= y <= ry + h`; so the four corners
of a rectangle with `w, h >= 0` are inside. -/
theorem point_in_rect_inclusive (x y : Int) (rect : SDL_Rect) :
    (isPointInRect x y rect = true ↔
        (rect.x ≤ x ∧ x ≤ rect.x + rect.w ∧ rect.y ≤ y ∧ y ≤ rect.y + rect.h)) ∧
      (0 ≤ rect.w → 0 ≤ rect.h →
        isPointInRect rect.x rect.y rect = true ∧
        isPointInRect (rect.x + rect.w) rect.y rect = true ∧
        isPointInRect rect.x (rect.y + rect.h) rect = true ∧
        isPointInRect (rect.x + rect.w) (rect.y + rect.h) rect = true) := by
  have h : ∀ a b : Int, isPointInRect a b rect = true ↔
      (rect.x ≤ a ∧ a ≤ rect.x + rect.w ∧ rect.y ≤ b ∧ b ≤ rect.y + rect.h) := by
    intro a b
    simp only [isPointInRect, Bool.and_eq_true, decide_eq_true_eq, ge_iff_le, and_assoc]
  refine ⟨h x y, ?_⟩
  intro hw hh
  refine ⟨(h _ _).mpr ?_, (h _ _).mpr ?_, (h _ _).mpr ?_, (h _ _).mpr ?_⟩ <;>
    refine ⟨?_, ?_, ?_, ?_⟩ <;> omega

/-- C24 at the corners of the "Return to Menu" button. -/
theorem point_in_rect_inclusive_witness :
    isPointInRect 180 420 returnToMenuButton.rect = true ∧
      isPointInRect (180 + 280) 420 returnToMenuButton.rect = true ∧
      isPointInRect 180 (420 + 30) returnToMenuButton.rect = true ∧
      isPointInRect (180 + 280) (420 + 30) returnToMenuButton.rect = true :=
  (point_in_rect_inclusive 0 0 returnToMenuButton.rect).2 (by decide) (by decide)

/-! ## The flap keys -/

theorem flapFirst_bird (g : FlappyBird) (key : Int) (i : Nat) (b : Bird)
    (hb : g.birds[i]? = some b) :
    ∃ b', (flapFirst g key).birds[i]? = some b' ∧ b'.y = b.y ∧ b'.alive = b.alive ∧
      b'.collided = b.collided ∧ b'.score = b.score ∧
      b'.velocity =
        (if i = 0 ∧ key = SDLK_SPACE ∧ b.alive = true ∧ b.collided = false then
          (F32.ofRatio 8 1).neg
         else b.velocity) := by
  unfold flapFirst
  split
  · rename_i b0 rest hl
    rw [hl] at hb
    cases i with
    | zero =>
      simp only [List.getElem?_cons_zero, Option.some.injEq] at hb
      subst hb
      split
      · rename_i hc
        exact ⟨{ b0 with velocity := (F32.ofRatio 8 1).neg }, by simp, rfl, rfl, rfl, rfl,
          by simp [hc]⟩
      · rename_i hc
        refine ⟨b0, by simp [hl], rfl, rfl, rfl, rfl, ?_⟩
        rw [if_neg]
        intro h
        exact hc h.2
    | succ j =>
      split
      · exact ⟨b, by simpa using hb, rfl, rfl, rfl, rfl, rfl⟩
      · exact ⟨b, by simpa [hl] using hb, rfl, rfl, rfl, rfl, rfl⟩
  · have hv : ¬ (i = 0 ∧ key = SDLK_SPACE ∧ b.alive = true ∧ b.collided = false) := by
      rename_i hnil
      intro h
      rw [hnil] at hb
      simp at hb
    exact ⟨b, hb, rfl, rfl, rfl, rfl, by rw [if_neg hv]⟩

theorem flapSecond_bird (g : FlappyBird) (key : Int) (i : Nat) (b : Bird)
    (hb : g.birds[i]? = some b) :
    ∃ b', (flapSecond g key).birds[i]? = some b' ∧ b'.y = b.y ∧ b'.alive = b.alive ∧
      b'.collided = b.collided ∧ b'.score = b.score ∧
      b'.velocity =
        (if i = 1 ∧ key = SDLK_UP ∧ b.alive = true ∧ b.collided = false then
          (F32.ofRatio 8 1).neg
         else b.velocity) := by
  unfold flapSecond
  split
  · rename_i b0 b1 rest hl
    rw [hl] at hb
    match i, hb with
    | 0, hb =>
      split
      · exact ⟨b, by simpa using hb, rfl, rfl, rfl, rfl, rfl⟩
      · exact ⟨b, by simpa [hl] using hb, rfl, rfl, rfl, rfl, rfl⟩
    | 1, hb =>
      simp only [List.getElem?_cons_succ, List.getElem?_cons_zero, Option.some.injEq] at hb
      subst hb
      split
      · rename_i hc
        exact ⟨{ b1 with velocity := (F32.ofRatio 8 1).neg }, by simp, rfl, rfl, rfl, rfl,
          by simp [hc]⟩
      · rename_i hc
        refine ⟨b1, by simp [hl], rfl, rfl, rfl, rfl, ?_⟩
        rw [if_neg]
        intro h
        exact hc ⟨h.2.2.1, h.2.2.2, h.2.1⟩
    | j + 2, hb =>
      split
      · exact ⟨b, by simpa using hb, rfl, rfl, rfl, rfl, rfl⟩
      · exact ⟨b, by simpa [hl] using hb, rfl, rfl, rfl, rfl, rfl⟩
  · rename_i hne
    have hv : ¬ (i = 1 ∧ key = SDLK_UP ∧ b.alive = true ∧ b.collided = false) := by
      rintro ⟨rfl, _⟩
      match hg : g.birds, hb with
      | [], hb => simp at hb
      | [_], hb => simp at hb
      | b0 :: b1 :: rest, _ => exact hne b0 b1 rest hg
    exact ⟨b, hb, rfl, rfl, rfl, rfl, by rw [if_neg hv]⟩

theorem startGame_flags (g : FlappyBird) (r : Nat) :
    (startGame g r).showGameOver = g.showGameOver :=
  rfl

/-- The key handler when the key is neither the space bar nor the up arrow. -/
theorem handleKeyDown_other (g : FlappyBird) (key : Int) (r : Nat)
    (h1 : key ≠ SDLK_SPACE) (h2 : key ≠ SDLK_UP) : handleKeyDown g key r = g := by
  have hf : flapFirst g key = g := by
    unfold flapFirst
    split
    · rw [if_neg (fun h => h1 h.1)]
    · rfl
  have hs : flapSecond g key = g := by
    unfold flapSecond
    split
    · rw [if_neg (fun h => h2 h.2.2)]
    · rfl
  unfold handleKeyDown
  cases hm : g.gameState <;> simp [h1, hf, hs]

theorem handleKeyDown_no_reset (g : FlappyBird) (key : Int) (r : Nat)
    (hno : ¬ (g.showGameOver = true ∧ key = SDLK_SPACE)) :
    handleKeyDown g key r =
      match g.gameState with
      | GameState.TWO_PLAYER_WAITING => if key = SDLK_SPACE then g.startGame r else g
      | GameState.ONE_PLAYER_WAITING => if key = SDLK_SPACE then g.startGame r else g
      | GameState.ONE_PLAYER => g.flapFirst key
      | GameState.TWO_PLAYER => (g.flapFirst key).flapSecond key
      | _ => g := by
  unfold handleKeyDown
  apply if_neg
  intro h
  apply hno
  refine ⟨?_, h.2⟩
  rw [← h.1]
  cases hm : g.gameState
  · rfl
  · exact ((flapFirst_flags g key).1).symm
  · simp only
    rw [(flapSecond_flags _ key).1, (flapFirst_flags g key).1]
  · rfl
  · simp only
    split <;> rfl
  · simp only
    split <;> rfl

/-- C21: the impulse guard.  In a key-down event that does not trigger a reset, the velocity of
the bird with index `i` is set to `-8.0f` exactly when the mode is a play mode, the key is the
flap key of that bird (the space bar for bird 0 in `ONE_PLAYER` and `TWO_PLAYER`, the up arrow
for bird 1 in `TWO_PLAYER`) and the bird is alive and has not collided; otherwise its velocity
is unchanged.  The position is unchanged in every case, and in a play mode so are the score,
`alive` and `collided`. -/
theorem impulse_guard (g : FlappyBird) (key : Int) (r : Nat) (i : Nat) (b : Bird)
    (hb : g.birds[i]? = some b) (hno : ¬ (g.showGameOver = true ∧ key = SDLK_SPACE)) :
    ∃ b', (handleKeyDown g key r).birds[i]? = some b' ∧ b'.y = b.y ∧
      (((i = 0 ∧ key = SDLK_SPACE ∧
            (g.gameState = GameState.ONE_PLAYER ∨ g.gameState = GameState.TWO_PLAYER) ∧
            b.alive = true ∧ b.collided = false) ∨
          (i = 1 ∧ key = SDLK_UP ∧ g.gameState = GameState.TWO_PLAYER ∧
            b.alive = true ∧ b.collided = false)) →
        b'.velocity = (F32.ofRatio 8 1).neg) ∧
      (¬ ((i = 0 ∧ key = SDLK_SPACE ∧
            (g.gameState = GameState.ONE_PLAYER ∨ g.gameState = GameState.TWO_PLAYER) ∧
            b.alive = true ∧ b.collided = false) ∨
          (i = 1 ∧ key = SDLK_UP ∧ g.gameState = GameState.TWO_PLAYER ∧
            b.alive = true ∧ b.collided = false)) →
        b'.velocity = b.velocity) ∧
      ((g.gameState = GameState.ONE_PLAYER ∨ g.gameState = GameState.TWO_PLAYER) →
        b'.score = b.score ∧ b'.alive = b.alive ∧ b'.collided = b.collided) := by
  rw [handleKeyDown_no_reset g key r hno]
  have hstart : ∀ s : FlappyBird, s = g.startGame r ∨ s = g →
      ∃ b', s.birds[i]? = some b' ∧ b'.y = b.y ∧ b'.velocity = b.velocity := by
    rintro s (rfl | rfl)
    · refine ⟨{ b with score := 0, alive := true, collided := false, dieSoundPlayed := false },
        ?_, rfl, rfl⟩
      simp [startGame, hb]
    · exact ⟨b, hb, rfl, rfl⟩
  cases hm : g.gameState
  · exact ⟨b, hb, rfl, by simp, fun _ => rfl, by simp⟩
  · obtain ⟨b', e1, e2, e3, e4, e5, e6⟩ := flapFirst_bird g key i b hb
    refine ⟨b', e1, e2, ?_, ?_, fun _ => ⟨e5, e3, e4⟩⟩
    · rintro (⟨h1, h2, _, h4, h5⟩ | ⟨_, _, h, _⟩)
      · rw [e6, if_pos ⟨h1, h2, h4, h5⟩]
      · exact absurd h (by simp)
    · intro hn
      rw [e6, if_neg]
      rintro ⟨h1, h2, h4, h5⟩
      exact hn (Or.inl ⟨h1, h2, Or.inl rfl, h4, h5⟩)
  · obtain ⟨b1, e1, e2, e3, e4, e5, e6⟩ := flapFirst_bird g key i b hb
    obtain ⟨b', f1, f2, f3, f4, f5, f6⟩ := flapSecond_bird (flapFirst g key) key i b1 e1
    refine ⟨b', f1, f2.trans e2, ?_, ?_, fun _ => ⟨f5.trans e5, f3.trans e3, f4.trans e4⟩⟩
    · rintro (⟨h1, h2, _, h4, h5⟩ | ⟨h1, h2, _, h4, h5⟩)
      · have hk : ¬ (i = 1 ∧ key = SDLK_UP ∧ b1.alive = true ∧ b1.collided = false) := by
          intro h
          omega
        rw [f6, if_neg hk, e6, if_pos ⟨h1, h2, h4, h5⟩]
      · rw [f6, if_pos ⟨h1, h2, by rw [e3]; exact h4, by rw [e4]; exact h5⟩]
    · intro hn
      have hk1 : ¬ (i = 0 ∧ key = SDLK_SPACE ∧ b.alive = true ∧ b.collided = false) := by
        rintro ⟨h1, h2, h4, h5⟩
        exact hn (Or.inl ⟨h1, h2, Or.inr rfl, h4, h5⟩)
      have hk2 : ¬ (i = 1 ∧ key = SDLK_UP ∧ b1.alive = true ∧ b1.collided = false) := by
        rintro ⟨h1, h2, h4, h5⟩
        exact hn (Or.inr ⟨h1, h2, rfl, by rw [← e3]; exact h4, by rw [← e4]; exact h5⟩)
      rw [f6, if_neg hk2, e6, if_neg hk1]
  · exact ⟨b, hb, rfl, by simp, fun _ => rfl, by simp⟩
  · obtain ⟨b', e1, e2, e3⟩ := hstart (if key = SDLK_SPACE then g.startGame r else g)
      (by split <;> simp)
    exact ⟨b', e1, e2, by simp, fun _ => e3, by simp⟩
  · obtain ⟨b', e1, e2, e3⟩ := hstart (if key = SDLK_SPACE then g.startGame r else g)
      (by split <;> simp)
    exact ⟨b', e1, e2, by simp, fun _ => e3, by simp⟩

/-- C21 at a two-player round right after the launch: the up arrow lifts the second bird only. -/
theorem impulse_guard_witness :
    (∃ b', (handleKeyDown duelStart SDLK_UP 0).birds[1]? = some b' ∧
      b'.velocity = (F32.ofRatio 8 1).neg) ∧
    (∃ b', (handleKeyDown duelStart SDLK_UP 0).birds[0]? = some b' ∧
      b'.velocity = F32.ofInt 0) := by
  have h0 : duelStart.birds[0]? = some { y := F32.ofInt 240, velocity := F32.ofInt 0 } := by
    decide
  have h1 : duelStart.birds[1]? = some { y := F32.ofInt 240, velocity := F32.ofInt 0 } := by
    decide
  obtain ⟨b', e1, _, e3, _, _⟩ := impulse_guard duelStart SDLK_UP 0 1 _ h1 (by decide)
  obtain ⟨c', f1, _, _, f4, _⟩ := impulse_guard duelStart SDLK_UP 0 0 _ h0 (by decide)
  exact ⟨⟨b', e1, e3 (Or.inr ⟨rfl, rfl, by decide, rfl, rfl⟩)⟩, ⟨c', f1, f4 (by decide)⟩⟩

/-- C22: the keys of the second player.  In a two-player round right after the launch, with the
second bird alive and not collided, the up arrow sets its velocity to `-8.0f` and the space bar
does so for the first bird, but the down, left and right arrows change nothing: the key handler
ignores every key other than the space bar and the up arrow. -/
theorem second_player_keys :
    duelStart.gameState = GameState.TWO_PLAYER ∧
      duelStart.birds =
        [{ y := F32.ofInt 240, velocity := F32.ofInt 0 },
         { y := F32.ofInt 240, velocity := F32.ofInt 0 }] ∧
      (handleKeyDown duelStart SDLK_UP 0).birds =
        [{ y := F32.ofInt 240, velocity := F32.ofInt 0 },
         { y := F32.ofInt 240, velocity := (F32.ofRatio 8 1).neg }] ∧
      (handleKeyDown duelStart SDLK_SPACE 0).birds =
        [{ y := F32.ofInt 240, velocity := (F32.ofRatio 8 1).neg },
         { y := F32.ofInt 240, velocity := F32.ofInt 0 }] ∧
      handleKeyDown duelStart SDLK_DOWN 0 = duelStart ∧
      handleKeyDown duelStart SDLK_LEFT 0 = duelStart ∧
      handleKeyDown duelStart SDLK_RIGHT 0 = duelStart ∧
      (∀ (g : FlappyBird) (key : Int) (r : Nat), key ≠ SDLK_SPACE → key ≠ SDLK_UP →
        handleKeyDown g key r = g) := by
  refine ⟨by decide, by decide, by decide, by decide, ?_, ?_, ?_, handleKeyDown_other⟩
  · exact handleKeyDown_other _ _ _ (by decide) (by decide)
  · exact handleKeyDown_other _ _ _ (by decide) (by decide)
  · exact handleKeyDown_other _ _ _ (by decide) (by decide)

/-! ## Reachable states -/

theorem run_reachable (truongW loaded : Int) (es : List Event) (g s : FlappyBird)
    (hg : Reachable truongW loaded g) (h : run truongW g es = some s) :
    Reachable truongW loaded s := by
  induction es generalizing g with
  | nil =>
    simp only [run, Option.some.injEq] at h
    rw [← h]
    exact hg
  | cons e es ih =>
    simp only [run] at h
    cases hs : step truongW g e with
    | none => rw [hs] at h; simp at h
    | some g' =>
      rw [hs] at h
      exact ih g' (Reachable.next g g' e hg hs) h

theorem birdCount_of (g g' : FlappyBird) (hs : g'.gameState = g.gameState)
    (hl : g'.birds.length = g.birds.length) (h : BirdCount g) : BirdCount g' := by
  unfold BirdCount at *
  rw [hs, hl]
  exact h

theorem birdCount_reset (g : FlappyBird) (players : Int) : BirdCount (reset g players) := by
  unfold reset BirdCount
  split <;> simp

theorem birdCount_idle (g : FlappyBird)
    (h : g.gameState = GameState.MENU ∨ g.gameState = GameState.INFO) : BirdCount g := by
  unfold BirdCount
  rcases h with h | h <;> rw [h] <;> simp

theorem flapFirst_length (g : FlappyBird) (key : Int) :
    (flapFirst g key).birds.length = g.birds.length := by
  unfold flapFirst
  split
  · rename_i hl
    split
    · simp [hl]
    · rfl
  · rfl

theorem flapSecond_length (g : FlappyBird) (key : Int) :
    (flapSecond g key).birds.length = g.birds.length := by
  unfold flapSecond
  split
  · rename_i hl
    split
    · simp [hl]
    · rfl
  · rfl

theorem birdCount_startGame (g : FlappyBird) (r : Nat)
    (hm : g.gameState = GameState.ONE_PLAYER_WAITING ∨
      g.gameState = GameState.TWO_PLAYER_WAITING) (h : BirdCount g) :
    BirdCount (startGame g r) := by
  unfold BirdCount at *
  rcases hm with hm | hm
  · have := h.1 (Or.inl hm)
    simp [startGame, hm, this]
  · have := h.2 (Or.inl hm)
    simp [startGame, hm, this]

theorem birdCount_handleKeyDown (g : FlappyBird) (key : Int) (r : Nat) (h : BirdCount g) :
    BirdCount (handleKeyDown g key r) := by
  have hpre : BirdCount
      (match g.gameState with
      | GameState.TWO_PLAYER_WAITING => if key = SDLK_SPACE then g.startGame r else g
      | GameState.ONE_PLAYER_WAITING => if key = SDLK_SPACE then g.startGame r else g
      | GameState.ONE_PLAYER => g.flapFirst key
      | GameState.TWO_PLAYER => (g.flapFirst key).flapSecond key
      | _ => g) := by
    cases hm : g.gameState
    · exact h
    · exact birdCount_of g _ (flapFirst_flags g key).2 (flapFirst_length g key) h
    · exact birdCount_of g _
        (((flapSecond_flags _ key).2).trans (flapFirst_flags g key).2)
        ((flapSecond_length _ key).trans (flapFirst_length g key)) h
    · exact h
    · simp only
      split
      · exact birdCount_startGame g r (Or.inr hm) h
      · exact h
    · simp only
      split
      · exact birdCount_startGame g r (Or.inl hm) h
      · exact h
  have hite : ∀ (pre : FlappyBird) (c : Prop) [Decidable c] (k : Int),
      BirdCount pre → BirdCount (if c then reset pre k else pre) := by
    intro pre c _ k hp
    split
    · exact birdCount_reset _ _
    · exact hp
  unfold handleKeyDown
  exact hite _ _ _ hpre

theorem birdCount_handleMouseClick (g g' : FlappyBird) (x y truongW : Int)
    (hc : handleMouseClick g x y truongW = some g') (h : BirdCount g) : BirdCount g' := by
  unfold handleMouseClick at hc
  split at hc
  · rename_i hm
    unfold handleMenuClick at hc
    split at hc
    · simp only [Option.some.injEq] at hc
      rw [← hc]
      exact birdCount_idle _ (Or.inl hm)
    · split at hc
      · simp at hc
      · split at hc
        · simp only [Option.some.injEq] at hc
          rw [← hc]
          exact birdCount_reset _ _
        · split at hc
          · simp at hc
          · split at hc
            · simp only [Option.some.injEq] at hc
              rw [← hc]
              exact birdCount_reset _ _
            · split at hc
              · simp at hc
              · split at hc
                · simp only [Option.some.injEq] at hc
                  rw [← hc]
                  exact birdCount_idle _ (Or.inr rfl)
                · simp only [Option.some.injEq] at hc
                  rw [← hc]
                  exact h
  · split at hc
    · simp at hc
    · split at hc
      · simp only [Option.some.injEq] at hc
        rw [← hc]
        exact birdCount_idle _ (Or.inl rfl)
      · simp only [Option.some.injEq] at hc
        rw [← hc]
        exact h

theorem collideBirds_length (it : Pipe) (bs : List Bird) (i : Nat) :
    (collideBirds it i bs).length = bs.length := by
  induction bs generalizing i with
  | nil => rfl
  | cons b rest ih => simp [collideBirds, ih]

theorem scoreBirds_length (it : Pipe) (bs : List Bird) :
    (scoreBirds it bs).length = bs.length := by
  unfold scoreBirds
  split <;> simp

theorem updatePipesLoop_length (ps : List Pipe) (bs : List Bird) :
    (updatePipesLoop ps bs).2.length = bs.length := by
  induction ps generalizing bs with
  | nil => rfl
  | cons p rest ih =>
    simp only [updatePipesLoop]
    rw [ih, scoreBirds_length, collideBirds_length]

theorem simulated_length (g : FlappyBird) (r : Nat) :
    (simulated g r).birds.length = g.birds.length := by
  rw [simulated_birds, List.length_map]
  show (updatePipesLoop _ _).2.length = _
  rw [updatePipesLoop_length]
  simp [updateBirdPhysics]

/-- A frame keeps the mode and the number of birds. -/
theorem update_shape (g : FlappyBird) (r : Nat) :
    (update g r).gameState = g.gameState ∧ (update g r).birds.length = g.birds.length := by
  by_cases h : (g.gameState = GameState.MENU ∨ g.gameState = GameState.INFO ∨
      g.gameState = GameState.TWO_PLAYER_WAITING ∨
      g.gameState = GameState.ONE_PLAYER_WAITING ∨ g.showGameOver = true)
  · rw [update_idle g r h]
    exact ⟨rfl, rfl⟩
  · have hmode : g.gameState = GameState.ONE_PLAYER ∨ g.gameState = GameState.TWO_PLAYER := by
      cases hm : g.gameState <;> simp [hm] at h ⊢
    have hgo : g.showGameOver = false := by
      cases hs : g.showGameOver
      · rfl
      · exact absurd (Or.inr (Or.inr (Or.inr (Or.inr hs)))) h
    rw [update_running g r hmode hgo]
    split
    · constructor
      · show (updateGameOver (simulated g r)).gameState = _
        rw [updateGameOver_flags, (simulated_flags g r).2.1]
      · show (updateGameOver (simulated g r)).birds.length = _
        rw [updateGameOver_birds, simulated_length]
    · exact ⟨(simulated_flags g r).2.1, simulated_length g r⟩

theorem reachable_birdCount (truongW loaded : Int) (g : FlappyBird)
    (h : Reachable truongW loaded g) : BirdCount g := by
  induction h with
  | init => exact birdCount_idle _ (Or.inl rfl)
  | next g g' e _ hs ih =>
    cases e with
    | keyDown key r =>
      simp only [step, Option.some.injEq] at hs
      rw [← hs]
      exact birdCount_handleKeyDown g key r ih
    | mouseClick x y =>
      exact birdCount_handleMouseClick g g' x y truongW hs ih
    | tick r =>
      simp only [step, Option.some.injEq] at hs
      rw [← hs]
      exact birdCount_of g _ (update_shape g r).1 (update_shape g r).2 ih

/-- C27: the bird count follows the mode.  In every state reachable from the menu state by key
presses, clicks and frames, the modes `ONE_PLAYER_WAITING` and `ONE_PLAYER` come with exactly
one bird and the modes `TWO_PLAYER_WAITING` and `TWO_PLAYER` with exactly two; so in a play mode
the bird list at the terminal check of a frame is not empty, and `updateGameOver` meets one bird
in mode `ONE_PLAYER` and two birds in mode `TWO_PLAYER`. -/
theorem bird_count_invariant (truongW loaded : Int) (g : FlappyBird)
    (h : Reachable truongW loaded g) :
    ((g.gameState = GameState.ONE_PLAYER_WAITING ∨ g.gameState = GameState.ONE_PLAYER) →
        g.birds.length = 1) ∧
      ((g.gameState = GameState.TWO_PLAYER_WAITING ∨ g.gameState = GameState.TWO_PLAYER) →
        g.birds.length = 2) ∧
      (∀ r : Nat, g.gameState = GameState.ONE_PLAYER ∨ g.gameState = GameState.TWO_PLAYER →
        (simulated g r).birds ≠ []) ∧
      (∀ r : Nat, g.gameState = GameState.ONE_PLAYER →
        (simulated g r).gameState = GameState.ONE_PLAYER ∧
        ∃ b, (simulated g r).birds = [b]) ∧
      (∀ r : Nat, g.gameState = GameState.TWO_PLAYER →
        (simulated g r).gameState = GameState.TWO_PLAYER ∧
        ∃ b0 b1, (simulated g r).birds = [b0, b1]) := by
  have hc := reachable_birdCount truongW loaded g h
  refine ⟨hc.1, hc.2, ?_, ?_, ?_⟩
  · intro r hm hnil
    have hl := simulated_length g r
    rw [hnil] at hl
    rcases hm with hm | hm
    · have := hc.1 (Or.inr hm)
      simp at hl
      omega
    · have := hc.2 (Or.inr hm)
      simp at hl
      omega
  · intro r hm
    refine ⟨by rw [(simulated_flags g r).2.1, hm], ?_⟩
    apply List.length_eq_one.mp
    rw [simulated_length]
    exact hc.1 (Or.inr hm)
  · intro r hm
    refine ⟨by rw [(simulated_flags g r).2.1, hm], ?_⟩
    apply List.length_eq_two.mp
    rw [simulated_length]
    exact hc.2 (Or.inr hm)

theorem soloPlaying_reachable : Reachable 96 0 soloPlaying :=
  run_reachable 96 0 soloLaunch (initial 0) soloPlaying Reachable.init (by decide)

theorem menuAfterRound_reachable : Reachable 96 0 menuAfterRound :=
  run_reachable 96 0 soloAndBack (initial 0) menuAfterRound Reachable.init
    (by set_option maxRecDepth 100000 in decide)

/-- C27 at the one-player round started from the menu. -/
theorem bird_count_invariant_witness :
    soloPlaying.gameState = GameState.ONE_PLAYER ∧ soloPlaying.birds.length = 1 ∧
      (simulated soloPlaying 0).birds ≠ [] :=
  ⟨by decide,
    (bird_count_invariant 96 0 soloPlaying soloPlaying_reachable).1 (Or.inr (by decide)),
    (bird_count_invariant 96 0 soloPlaying soloPlaying_reachable).2.2.1 0
      (Or.inl (by decide))⟩

theorem handleKeyDown_idle (g : FlappyBird) (key : Int) (r : Nat)
    (hm : g.gameState = GameState.MENU ∨ g.gameState = GameState.INFO)
    (hno : ¬ (g.showGameOver = true ∧ key = SDLK_SPACE)) : handleKeyDown g key r = g := by
  rw [handleKeyDown_no_reset g key r hno]
  rcases hm with hm | hm <;> rw [hm]

/-- C23: keys in the menu.  The menu state `menuAfterRound` is reached by playing a one-player
round to its end and clicking "Return to Menu"; its game-over flag is still up, and the space
bar takes it from `MENU` to `TWO_PLAYER_WAITING` with two fresh birds.  In the modes `MENU` and
`INFO` a key-down event leaves the state unchanged only when it is not the space bar with the
game-over flag up. -/
theorem menu_key_with_stale_flag :
    Reachable 96 0 menuAfterRound ∧
      menuAfterRound.gameState = GameState.MENU ∧ menuAfterRound.showGameOver = true ∧
      (handleKeyDown menuAfterRound SDLK_SPACE 0).gameState = GameState.TWO_PLAYER_WAITING ∧
      (handleKeyDown menuAfterRound SDLK_SPACE 0).birds =
        [{ y := F32.ofInt 240, velocity := F32.ofInt 0 },
         { y := F32.ofInt 240, velocity := F32.ofInt 0 }] ∧
      (∀ (g : FlappyBird) (key : Int) (r : Nat),
        g.gameState = GameState.MENU ∨ g.gameState = GameState.INFO →
        ¬ (g.showGameOver = true ∧ key = SDLK_SPACE) → handleKeyDown g key r = g) := by
  refine ⟨menuAfterRound_reachable, ?_, ?_, ?_, ?_, handleKeyDown_idle⟩
  · set_option maxRecDepth 100000 in decide
  · set_option maxRecDepth 100000 in decide
  · set_option maxRecDepth 100000 in decide
  · set_option maxRecDepth 100000 in decide

theorem handleMouseClick_empty (g : FlappyBird) (x y truongW : Int)
    (hm : g.gameState ≠ GameState.MENU) (hb : g.buttons = []) :
    handleMouseClick g x y truongW = none := by
  unfold handleMouseClick
  split
  · rename_i h
    exact absurd h hm
  · rw [hb]
    rfl

/-- C26: the return button during play.  The state `soloPlaying` is reached from the menu by the
click on "1 Player" and the launch key; its mode is `ONE_PLAYER`, the round is running, and its
button list is empty, so the access `buttons[0]` of the click handler is out of bounds for every
click. -/
theorem no_button_during_play :
    Reachable 96 0 soloPlaying ∧
      soloPlaying.gameState = GameState.ONE_PLAYER ∧ soloPlaying.showGameOver = false ∧
      soloPlaying.buttons = [] ∧ soloPlaying.buttons[0]? = none ∧
      (∀ x y truongW : Int, handleMouseClick soloPlaying x y truongW = none) := by
  refine ⟨soloPlaying_reachable, by decide, by decide, by decide, by decide, ?_⟩
  intro x y truongW
  exact handleMouseClick_empty _ x y truongW (by decide) (by decide)

/-! ## The best score -/

theorem reset_highScore (g : FlappyBird) (players : Int) :
    g.highScore ≤ (reset g players).highScore := by
  unfold reset
  split
  · exact le_refl _
  · exact le_max_left _ _

theorem updateGameOver_highScore (g : FlappyBird) :
    g.highScore ≤ (updateGameOver g).highScore := by
  unfold updateGameOver
  split
  · split
    · exact le_max_left _ _
    · exact le_refl _
  · exact le_max_left _ _
  · exact le_refl _

theorem update_highScore (g : FlappyBird) (r : Nat) :
    g.highScore ≤ (update g r).highScore := by
  by_cases h : (g.gameState = GameState.MENU ∨ g.gameState = GameState.INFO ∨
      g.gameState = GameState.TWO_PLAYER_WAITING ∨
      g.gameState = GameState.ONE_PLAYER_WAITING ∨ g.showGameOver = true)
  · rw [update_idle g r h]
  · have hmode : g.gameState = GameState.ONE_PLAYER ∨ g.gameState = GameState.TWO_PLAYER := by
      cases hm : g.gameState <;> simp [hm] at h ⊢
    have hgo : g.showGameOver = false := by
      cases hs : g.showGameOver
      · rfl
      · exact absurd (Or.inr (Or.inr (Or.inr (Or.inr hs)))) h
    rw [update_running g r hmode hgo]
    split
    · show g.highScore ≤ (updateGameOver (simulated g r)).highScore
      have := updateGameOver_highScore (simulated g r)
      rw [(simulated_flags g r).2.2.1] at this
      exact this
    · rw [(simulated_flags g r).2.2.1]

theorem flapFirst_highScore (g : FlappyBird) (key : Int) :
    (flapFirst g key).highScore = g.highScore := by
  unfold flapFirst
  split
  · split <;> rfl
  · rfl

theorem flapSecond_highScore (g : FlappyBird) (key : Int) :
    (flapSecond g key).highScore = g.highScore := by
  unfold flapSecond
  split
  · split <;> rfl
  · rfl

theorem handleKeyDown_highScore (g : FlappyBird) (key : Int) (r : Nat) :
    g.highScore ≤ (handleKeyDown g key r).highScore := by
  have hpre : g.highScore ≤
      (match g.gameState with
      | GameState.TWO_PLAYER_WAITING => if key = SDLK_SPACE then g.startGame r else g
      | GameState.ONE_PLAYER_WAITING => if key = SDLK_SPACE then g.startGame r else g
      | GameState.ONE_PLAYER => g.flapFirst key
      | GameState.TWO_PLAYER => (g.flapFirst key).flapSecond key
      | _ => g).highScore := by
    cases hm : g.gameState
    · exact le_refl _
    · exact le_of_eq (flapFirst_highScore g key).symm
    · exact le_of_eq ((flapSecond_highScore _ key).trans (flapFirst_highScore g key)).symm
    · exact le_refl _
    · simp only
      split <;> exact le_refl _
    · simp only
      split <;> exact le_refl _
  have hite : ∀ (pre : FlappyBird) (c : Prop) [Decidable c] (k : Int),
      g.highScore ≤ pre.highScore → g.highScore ≤ (if c then reset pre k else pre).highScore := by
    intro pre c _ k hp
    split
    · exact le_trans hp (reset_highScore pre k)
    · exact hp
  unfold handleKeyDown
  exact hite _ _ _ hpre

theorem handleMouseClick_highScore (g g' : FlappyBird) (x y truongW : Int)
    (hc : handleMouseClick g x y truongW = some g') : g.highScore ≤ g'.highScore := by
  unfold handleMouseClick at hc
  split at hc
  · unfold handleMenuClick at hc
    split at hc
    · simp only [Option.some.injEq] at hc
      rw [← hc]
    · split at hc
      · simp at hc
      · split at hc
        · simp only [Option.some.injEq] at hc
          rw [← hc]
          exact reset_highScore g 1
        · split at hc
          · simp at hc
          · split at hc
            · simp only [Option.some.injEq] at hc
              rw [← hc]
              exact reset_highScore g 2
            · split at hc
              · simp at hc
              · split at hc
                · simp only [Option.some.injEq] at hc
                  rw [← hc]
                · simp only [Option.some.injEq] at hc
                  rw [← hc]
  · split at hc
    · simp at hc
    · split at hc
      · simp only [Option.some.injEq] at hc
        rw [← hc]
        exact le_refl _
      · simp only [Option.some.injEq] at hc
        rw [← hc]

/-- With the bird count of the mode, the best score after `updateGameOver` covers every bird. -/
theorem updateGameOver_covers (g : FlappyBird) (hc : BirdCount g)
    (hm : g.gameState = GameState.ONE_PLAYER ∨ g.gameState = GameState.TWO_PLAYER) :
    ∀ b ∈ g.birds, b.score ≤ (updateGameOver g).highScore := by
  rcases hm with hm | hm
  · obtain ⟨b0, hb⟩ := List.length_eq_one.mp (hc.1 (Or.inr hm))
    unfold updateGameOver
    rw [hb]
    intro b hmem
    simp only [List.mem_singleton] at hmem
    rw [hmem]
    exact le_max_right _ _
  · obtain ⟨b0, b1, hb⟩ := List.length_eq_two.mp (hc.2 (Or.inr hm))
    unfold updateGameOver
    rw [hb]
    simp only [hm, if_true]
    intro b hmem
    simp only [List.mem_cons, List.mem_singleton, List.not_mem_nil, or_false] at hmem
    rcases hmem with rfl | rfl
    · exact le_trans (le_max_left _ _) (le_max_right _ _)
    · exact le_trans (le_max_right _ _) (le_max_right _ _)

/-- C28: the best score never decreases.  Across a key-down event, a click, a frame, `reset` and
`startGame` the best score afterwards is at least the best score before; and right after the
frame that raises the game-over flag in a reachable state, the best score is at least the score
of every bird. -/
theorem best_score_monotone (g : FlappyBird) :
    (∀ (key : Int) (r : Nat), g.highScore ≤ (handleKeyDown g key r).highScore) ∧
      (∀ (x y truongW : Int) (g' : FlappyBird),
        handleMouseClick g x y truongW = some g' → g.highScore ≤ g'.highScore) ∧
      (∀ r : Nat, g.highScore ≤ (update g r).highScore) ∧
      (∀ players : Int, g.highScore ≤ (reset g players).highScore) ∧
      (∀ r : Nat, g.highScore ≤ (startGame g r).highScore) ∧
      (∀ (truongW loaded : Int) (r : Nat), Reachable truongW loaded g →
        g.showGameOver = false → (update g r).showGameOver = true →
        ∀ b ∈ (update g r).birds, b.score ≤ (update g r).highScore) := by
  refine ⟨handleKeyDown_highScore g, fun x y w g' => handleMouseClick_highScore g g' x y w,
    update_highScore g, reset_highScore g, fun _ => le_refl _, ?_⟩
  intro truongW loaded r hr hgo hup
  have hmode : g.gameState = GameState.ONE_PLAYER ∨ g.gameState = GameState.TWO_PLAYER := by
    by_contra hn
    have hidle : update g r = g := by
      apply update_idle
      cases hm : g.gameState <;> simp [hm] at hn ⊢
    rw [hidle, hgo] at hup
    exact absurd hup (by simp)
  have hc : BirdCount (simulated g r) :=
    birdCount_of g _ (simulated_flags g r).2.1 (simulated_length g r)
      (reachable_birdCount truongW loaded g hr)
  have hm' : (simulated g r).gameState = GameState.ONE_PLAYER ∨
      (simulated g r).gameState = GameState.TWO_PLAYER := by
    rw [(simulated_flags g r).2.1]
    exact hmode
  have hs := (simulated_flags g r).1
  rw [hgo] at hs
  have hu := update_running g r hmode hgo
  by_cases ht : ((simulated g r).birds.isEmpty ||
      (simulated g r).birds.all (fun b => !b.alive)) = true
  · rw [if_pos ht] at hu
    rw [hu]
    show ∀ b ∈ (updateGameOver (simulated g r)).birds,
      b.score ≤ (updateGameOver (simulated g r)).highScore
    rw [updateGameOver_birds]
    exact updateGameOver_covers _ hc hm'
  · rw [if_neg ht] at hu
    rw [hu, hs] at hup
    exact absurd hup (by simp)

/-- C28 at the frame that ends the one-player round started from the menu. -/
theorem best_score_monotone_witness :
    ∀ b ∈ (update (updates soloPlaying (List.replicate 31 0)) 0).birds,
      b.score ≤ (update (updates soloPlaying (List.replicate 31 0)) 0).highScore := by
  have hrun : run 96 (initial 0) (soloLaunch ++ List.replicate 31 (Event.tick 0)) =
      some (updates soloPlaying (List.replicate 31 0)) := by
    set_option maxRecDepth 100000 in decide
  exact (best_score_monotone (updates soloPlaying (List.replicate 31 0))).2.2.2.2.2 96 0 0
    (run_reachable 96 0 _ (initial 0) _ Reachable.init hrun)
    (by set_option maxRecDepth 100000 in decide)
    (by set_option maxRecDepth 100000 in decide)

/-! ## The pipe train -/

theorem pipeTrain_last (lo : Int) (ps : List Pipe) (h : PipeTrain lo ps) :
    ∃ back, ps.getLast? = some back ∧ lo ≤ back.x ∧ back.x ≤ 640 ∧ back.x % 2 = 0 := by
  induction ps with
  | nil => exact absurd h (by simp [PipeTrain])
  | cons p rest ih =>
    cases rest with
    | nil => exact ⟨p, rfl, h⟩
    | cons q rest =>
      obtain ⟨back, hb, hrest⟩ := ih h.2
      refine ⟨back, ?_, hrest⟩
      rw [List.getLast?_cons_cons]
      exact hb

/-- Every pipe of a train is at least as far right as the first one, at most at 640, and
even. -/
theorem pipeTrain_mem (lo : Int) (ps : List Pipe) (h : PipeTrain lo ps) (c : Int)
    (hc : ∀ first, ps.head? = some first → c ≤ first.x) :
    ∀ p ∈ ps, c ≤ p.x ∧ p.x ≤ 640 ∧ p.x % 2 = 0 := by
  induction ps generalizing c with
  | nil => exact absurd h (by simp [PipeTrain])
  | cons p rest ih =>
    cases rest with
    | nil =>
      intro q hq
      simp only [List.mem_singleton] at hq
      rw [hq]
      exact ⟨hc p rfl, h.2.1, h.2.2⟩
    | cons q rest =>
      have hp := hc p rfl
      have hrec := ih h.2 (p.x + 170) (by
        intro first hf
        simp only [List.head?_cons, Option.some.injEq] at hf
        rw [← hf, h.1])
      have hq := hrec q (List.mem_cons_self _ _)
      intro a ha
      rcases List.mem_cons.mp ha with rfl | ha
      · refine ⟨hp, ?_, ?_⟩
        · have := h.1
          omega
        · have := h.1
          omega
      · obtain ⟨h1, h2, h3⟩ := hrec a ha
        exact ⟨by omega, h2, h3⟩

theorem pipeTrain_chain (lo : Int) (ps : List Pipe) (h : PipeTrain lo ps) :
    List.Chain' (fun p q : Pipe => q.x = p.x + 170) ps := by
  induction ps with
  | nil => exact List.chain'_nil
  | cons p rest ih =>
    cases rest with
    | nil => exact List.chain'_singleton p
    | cons q rest => exact List.Chain'.cons h.1 (ih h.2)

theorem pipeTrain_pairwise (lo : Int) (ps : List Pipe) (h : PipeTrain lo ps) :
    List.Pairwise (fun p q : Pipe => p.x + 170 ≤ q.x) ps := by
  induction ps with
  | nil => exact List.Pairwise.nil
  | cons p rest ih =>
    cases rest with
    | nil => exact List.pairwise_singleton _ p
    | cons q rest =>
      refine List.Pairwise.cons ?_ (ih h.2)
      intro a ha
      have := (pipeTrain_mem lo (q :: rest) h.2 (p.x + 170) (by
        intro first hf
        simp only [List.head?_cons, Option.some.injEq] at hf
        rw [← hf, h.1]) a ha).1
      exact this

theorem pipeTrain_length (lo : Int) (ps : List Pipe) (h : PipeTrain lo ps) (c : Int)
    (hc : ∀ first, ps.head? = some first → c ≤ first.x) :
    c + 170 * (ps.length : Int) ≤ 640 + 170 := by
  induction ps generalizing c with
  | nil => exact absurd h (by simp [PipeTrain])
  | cons p rest ih =>
    cases rest with
    | nil =>
      have := hc p rfl
      have := h.2.1
      simp only [List.length_singleton, Nat.cast_one]
      omega
    | cons q rest =>
      have hp := hc p rfl
      have hrec := ih h.2 (p.x + 170) (by
        intro first hf
        simp only [List.head?_cons, Option.some.injEq] at hf
        rw [← hf, h.1])
      simp only [List.length_cons, Nat.cast_add, Nat.cast_one] at hrec ⊢
      omega

/-- In a list whose pipes are at least 170 apart, at most one pipe meets a window of width 2. -/
theorem window_count (ps : List Pipe) (lo : Int)
    (h : List.Pairwise (fun p q : Pipe => p.x + 170 ≤ q.x) ps) :
    ps.countP (fun p => decide (lo ≤ p.x ∧ p.x < lo + 2)) ≤ 1 := by
  induction ps with
  | nil => simp
  | cons p rest ih =>
    rw [List.pairwise_cons] at h
    by_cases hp : lo ≤ p.x ∧ p.x < lo + 2
    · have hz : rest.countP (fun p => decide (lo ≤ p.x ∧ p.x < lo + 2)) = 0 := by
        rw [List.countP_eq_zero]
        intro q hq
        have := h.1 q hq
        simp only [decide_eq_true_eq]
        omega
      rw [List.countP_cons_of_pos _ _ (by simpa using hp), hz]
    · rw [List.countP_cons_of_neg _ _ (by simpa using hp)]
      exact ih h.2

theorem pipeTrain_scroll (ps : List Pipe) (h : PipeTrain 472 ps) :
    PipeTrain 470 (ps.map (fun p => ({ p with x := p.x - 2 } : Pipe))) := by
  induction ps with
  | nil => exact absurd h (by simp [PipeTrain])
  | cons p rest ih =>
    cases rest with
    | nil =>
      obtain ⟨h1, h2, h3⟩ := h
      refine ⟨?_, ?_, ?_⟩ <;> simp only <;> omega
    | cons q rest =>
      refine ⟨?_, ih h.2⟩
      have := h.1
      simp only
      omega

theorem pipeTrain_raise (ps : List Pipe) (h : PipeTrain 470 ps)
    (hl : ∀ back, ps.getLast? = some back → 470 < back.x) : PipeTrain 472 ps := by
  induction ps with
  | nil => exact absurd h (by simp [PipeTrain])
  | cons p rest ih =>
    cases rest with
    | nil =>
      obtain ⟨h1, h2, h3⟩ := h
      have := hl p rfl
      exact ⟨by omega, h2, h3⟩
    | cons q rest =>
      refine ⟨h.1, ih h.2 ?_⟩
      intro back hb
      apply hl
      rw [List.getLast?_cons_cons]
      exact hb

theorem pipeTrain_append (ps : List Pipe) (gapY : Int) (h : PipeTrain 470 ps)
    (hl : ∀ back, ps.getLast? = some back → back.x = 470) :
    PipeTrain 472 (ps ++ [⟨640, gapY⟩]) := by
  induction ps with
  | nil => exact absurd h (by simp [PipeTrain])
  | cons p rest ih =>
    cases rest with
    | nil =>
      have := hl p rfl
      refine ⟨?_, ?_, ?_, ?_⟩ <;> simp only <;> omega
    | cons q rest =>
      refine ⟨h.1, ih h.2 ?_⟩
      intro back hb
      apply hl
      rw [List.getLast?_cons_cons]
      exact hb

theorem pipeInv_pruned (ps : List Pipe) (h : PipeInv ps) :
    PipeTrain 470
        ((ps.map (fun p => ({ p with x := p.x - 2 } : Pipe))).filter
          (fun p => !decide (p.x + 50 < 0))) ∧
      ∀ first,
        ((ps.map (fun p => ({ p with x := p.x - 2 } : Pipe))).filter
          (fun p => !decide (p.x + 50 < 0))).head? = some first → -50 ≤ first.x := by
  obtain ⟨ht, hh⟩ := h
  cases ps with
  | nil => exact absurd ht (by simp [PipeTrain])
  | cons p rest =>
    have hp := hh p rfl
    have hpw := pipeTrain_pairwise 472 (p :: rest) ht
    rw [List.pairwise_cons] at hpw
    have hrest : (rest.map (fun p => ({ p with x := p.x - 2 } : Pipe))).filter
        (fun p => !decide (p.x + 50 < 0)) =
        rest.map (fun p => ({ p with x := p.x - 2 } : Pipe)) := by
      rw [List.filter_eq_self]
      intro a ha
      rw [List.mem_map] at ha
      obtain ⟨q, hq, rfl⟩ := ha
      have := hpw.1 q hq
      simp only [Bool.not_eq_true', decide_eq_false_iff_not]
      omega
    rw [List.map_cons, List.filter_cons, hrest]
    by_cases hk : p.x - 2 + 50 < 0
    · have hdrop : (!decide (({ p with x := p.x - 2 } : Pipe).x + 50 < 0)) = false := by
        simp only [Bool.not_eq_false', decide_eq_true_eq]
        exact hk
      rw [hdrop]
      simp only [Bool.false_eq_true, if_false]
      cases rest with
      | nil =>
        have := ht.1
        omega
      | cons q rest' =>
        refine ⟨pipeTrain_scroll _ ht.2, ?_⟩
        intro first hf
        simp only [List.map_cons, List.head?_cons, Option.some.injEq] at hf
        rw [← hf]
        have := ht.1
        simp only
        omega
    · have hkeep : (!decide (({ p with x := p.x - 2 } : Pipe).x + 50 < 0)) = true := by
        simp only [Bool.not_eq_true', decide_eq_false_iff_not]
        exact hk
      rw [hkeep]
      simp only [if_true]
      refine ⟨pipeTrain_scroll _ ht, ?_⟩
      intro first hf
      simp only [List.head?_cons, Option.some.injEq] at hf
      rw [← hf]
      simp only
      omega

theorem spawnPipe_pipeInv (s : FlappyBird) (r : Nat) (ht : PipeTrain 470 s.pipes)
    (hh : ∀ first, s.pipes.head? = some first → -50 ≤ first.x) :
    PipeInv (spawnPipe s r).pipes := by
  obtain ⟨back, hb, h1, h2, h3⟩ := pipeTrain_last 470 s.pipes ht
  have hne : s.pipes ≠ [] := by
    intro hnil
    rw [hnil] at hb
    simp at hb
  unfold spawnPipe
  rw [hb]
  by_cases hx : back.x = 470
  · rw [if_pos (by simp [WINDOW_WIDTH, PIPE_SPACING, PIPE_WIDTH, hx])]
    refine ⟨pipeTrain_append _ _ ht ?_, ?_⟩
    · intro b hb'
      rw [hb] at hb'
      simp only [Option.some.injEq] at hb'
      rw [← hb']
      exact hx
    · intro first hf
      apply hh
      rw [List.head?_append_of_ne_nil _ hne] at hf
      exact hf
  · have hgt : 470 < back.x := by omega
    rw [if_neg]
    · refine ⟨pipeTrain_raise _ ht ?_, hh⟩
      intro b hb'
      rw [hb] at hb'
      simp only [Option.some.injEq] at hb'
      rw [← hb']
      exact hgt
    · simp only [Bool.or_eq_true, List.isEmpty_iff, decide_eq_true_eq, WINDOW_WIDTH,
        PIPE_SPACING, PIPE_WIDTH, not_or]
      exact ⟨hne, by omega⟩

theorem updateGameOver_pipes (g : FlappyBird) : (updateGameOver g).pipes = g.pipes := by
  unfold updateGameOver
  split
  · split <;> rfl
  · rfl
  · rfl

theorem simulated_pipeInv (g : FlappyBird) (r : Nat) (h : PipeInv g.pipes) :
    PipeInv (simulated g r).pipes := by
  unfold simulated
  have hp := pipeInv_pruned g.pipes h
  have e : (updatePipes (updateBirdPhysics g)).pipes =
      (g.pipes.map (fun p => ({ p with x := p.x - 2 } : Pipe))).filter
        (fun p => !decide (p.x + 50 < 0)) :=
    updatePipesLoop_pipes g.pipes (updateBirdPhysics g).birds
  apply spawnPipe_pipeInv
  · show PipeTrain 470 (updatePipes (updateBirdPhysics g)).pipes
    rw [e]
    exact hp.1
  · show ∀ first, (updatePipes (updateBirdPhysics g)).pipes.head? = some first → _
    rw [e]
    exact hp.2

theorem update_pipeInv (g : FlappyBird) (r : Nat) (h : PipeInv g.pipes) :
    PipeInv (update g r).pipes := by
  by_cases hi : (g.gameState = GameState.MENU ∨ g.gameState = GameState.INFO ∨
      g.gameState = GameState.TWO_PLAYER_WAITING ∨
      g.gameState = GameState.ONE_PLAYER_WAITING ∨ g.showGameOver = true)
  · rw [update_idle g r hi]
    exact h
  · have hmode : g.gameState = GameState.ONE_PLAYER ∨ g.gameState = GameState.TWO_PLAYER := by
      cases hm : g.gameState <;> simp [hm] at hi ⊢
    have hgo : g.showGameOver = false := by
      cases hs : g.showGameOver
      · rfl
      · exact absurd (Or.inr (Or.inr (Or.inr (Or.inr hs)))) hi
    rw [update_running g r hmode hgo]
    split
    · show PipeInv (updateGameOver (simulated g r)).pipes
      rw [updateGameOver_pipes]
      exact simulated_pipeInv g r h
    · exact simulated_pipeInv g r h

theorem updates_pipeInv (rs : List Nat) (g : FlappyBird) (h : PipeInv g.pipes) :
    PipeInv (updates g rs).pipes := by
  induction rs generalizing g with
  | nil => exact h
  | cons r rs ih => exact ih (update g r) (update_pipeInv g r h)

theorem launch_pipeInv (g : FlappyBird) (n : Int) (r : Nat) (h : n = 1 ∨ n = 2) :
    PipeInv (startGame (reset g n) r).pipes := by
  have e : ∃ y, (startGame (reset g n) r).pipes = [⟨640, y⟩] := by
    rcases h with rfl | rfl
    · rw [reset_one]
      exact ⟨_, rfl⟩
    · rw [reset_two]
      exact ⟨_, rfl⟩
  obtain ⟨y, hy⟩ := e
  rw [hy]
  refine ⟨⟨?_, ?_, ?_⟩, ?_⟩
  · show (472 : Int) ≤ 640
    decide
  · show (640 : Int) ≤ 640
    decide
  · show (640 : Int) % 2 = 0
    decide
  · intro first hf
    simp only [List.head?_cons, Option.some.injEq] at hf
    rw [← hf]
    show (-50 : Int) ≤ 640
    decide

theorem pipeTrain_last_max (lo : Int) (ps : List Pipe) (h : PipeTrain lo ps) :
    ∃ back, ps.getLast? = some back ∧ ∀ p ∈ ps, p.x ≤ back.x := by
  induction ps with
  | nil => exact absurd h (by simp [PipeTrain])
  | cons p rest ih =>
    cases rest with
    | nil =>
      refine ⟨p, rfl, ?_⟩
      intro a ha
      simp only [List.mem_singleton] at ha
      rw [ha]
    | cons q rest =>
      obtain ⟨back, hb, hmax⟩ := ih h.2
      refine ⟨back, by rw [List.getLast?_cons_cons]; exact hb, ?_⟩
      intro a ha
      rcases List.mem_cons.mp ha with rfl | ha
      · have := hmax q (List.mem_cons_self _ _)
        have := h.1
        omega
      · exact hmax a ha

/-- C25: the pipe order.  In every state reached from a launch by frames, the pipe list is
strictly increasing in `x` in list order, so its last element, the one the spawn rule reads, is
the rightmost pipe. -/
theorem pipes_left_to_right (g : FlappyBird) (n : Int) (r : Nat) (rs : List Nat)
    (h : n = 1 ∨ n = 2) :
    List.Pairwise (fun p q : Pipe => p.x < q.x) (updates (startGame (reset g n) r) rs).pipes ∧
      ∃ back, (updates (startGame (reset g n) r) rs).pipes.getLast? = some back ∧
        ∀ p ∈ (updates (startGame (reset g n) r) rs).pipes, p.x ≤ back.x := by
  have hinv := updates_pipeInv rs _ (launch_pipeInv g n r h)
  refine ⟨?_, pipeTrain_last_max 472 _ hinv.1⟩
  refine List.Pairwise.imp ?_ (pipeTrain_pairwise 472 _ hinv.1)
  intro p q hpq
  omega

/-- C25 after a one-player launch and 100 frames. -/
theorem pipes_left_to_right_witness :
    List.Pairwise (fun p q : Pipe => p.x < q.x)
        (updates (startGame (reset (initial 0) 1) 7) (List.replicate 100 0)).pipes ∧
      ∃ back, (updates (startGame (reset (initial 0) 1) 7)
          (List.replicate 100 0)).pipes.getLast? = some back ∧
        ∀ p ∈ (updates (startGame (reset (initial 0) 1) 7) (List.replicate 100 0)).pipes,
          p.x ≤ back.x :=
  pipes_left_to_right (initial 0) 1 7 (List.replicate 100 0) (Or.inl rfl)

theorem inScoringWindow_eq (d : Int) :
    (fun p : Pipe => inScoringWindow { p with x := p.x - d }) =
      (fun p : Pipe => decide (108 + d ≤ p.x ∧ p.x < 108 + d + 2)) := by
  funext p
  simp only [inScoringWindow, PIPE_WIDTH, WINDOW_WIDTH]
  rw [Bool.eq_iff_iff]
  simp only [Bool.and_eq_true, decide_eq_true_eq]
  omega

/-- C29: spacing and population of the pipes.  In every state reached from a launch by frames,
every pipe has an even `x` with `-50 <= x <= 640`, consecutive pipes are exactly 170 apart,
there are at most 5 pipes, and at most one pipe is in the scoring window, both as the list
stands and after the scroll of the next pipe step. -/
theorem pipe_spacing (g : FlappyBird) (n : Int) (r : Nat) (rs : List Nat)
    (h : n = 1 ∨ n = 2) :
    (∀ p ∈ (updates (startGame (reset g n) r) rs).pipes,
        p.x % 2 = 0 ∧ -50 ≤ p.x ∧ p.x ≤ 640) ∧
      List.Chain' (fun p q : Pipe => q.x = p.x + 170)
        (updates (startGame (reset g n) r) rs).pipes ∧
      (updates (startGame (reset g n) r) rs).pipes.length ≤ 5 ∧
      (updates (startGame (reset g n) r) rs).pipes.countP (fun p => inScoringWindow p) ≤ 1 ∧
      (updates (startGame (reset g n) r) rs).pipes.countP
        (fun p => inScoringWindow { p with x := p.x - 2 }) ≤ 1 := by
  have hinv := updates_pipeInv rs _ (launch_pipeInv g n r h)
  have hpw := pipeTrain_pairwise 472 _ hinv.1
  refine ⟨?_, pipeTrain_chain 472 _ hinv.1, ?_, ?_, ?_⟩
  · intro p hp
    obtain ⟨h1, h2, h3⟩ := pipeTrain_mem 472 _ hinv.1 (-50) hinv.2 p hp
    exact ⟨h3, h1, h2⟩
  · have := pipeTrain_length 472 _ hinv.1 (-50) hinv.2
    omega
  · have e := inScoringWindow_eq 0
    simp only [sub_zero, add_zero] at e
    rw [e]
    exact window_count _ 108 hpw
  · rw [inScoringWindow_eq 2]
    exact window_count _ (108 + 2) hpw

/-- C29 after a two-player launch and 100 frames. -/
theorem pipe_spacing_witness :
    (∀ p ∈ (updates (startGame (reset (initial 0) 2) 7) (List.replicate 100 0)).pipes,
        p.x % 2 = 0 ∧ -50 ≤ p.x ∧ p.x ≤ 640) ∧
      List.Chain' (fun p q : Pipe => q.x = p.x + 170)
        (updates (startGame (reset (initial 0) 2) 7) (List.replicate 100 0)).pipes ∧
      (updates (startGame (reset (initial 0) 2) 7) (List.replicate 100 0)).pipes.length ≤ 5 ∧
      (updates (startGame (reset (initial 0) 2) 7) (List.replicate 100 0)).pipes.countP
        (fun p => inScoringWindow p) ≤ 1 ∧
      (updates (startGame (reset (initial 0) 2) 7) (List.replicate 100 0)).pipes.countP
        (fun p => inScoringWindow { p with x := p.x - 2 }) ≤ 1 :=
  pipe_spacing (initial 0) 2 7 (List.replicate 100 0) (Or.inr rfl)

/-! ## Free fall -/

set_option maxRecDepth 100000 in
theorem fall_airborne : ∀ k < 32, (fall k).alive = true ∧ (fall k).collided = false ∧
    (fall k).score = 0 := by
  decide

set_option maxRecDepth 100000 in
theorem fall_landed : (fall 32).alive = false ∧ (fall 32).collided = false ∧
    (fall 32).score = 0 ∧
    ((fall 32).y.add (F32.ofInt BIRD_SIZE)).ge (F32.ofInt WINDOW_HEIGHT) = true := by
  decide

theorem fall_collided (k : Nat) (hk : k ≤ 32) : (fall k).collided = false := by
  rcases Nat.lt_or_ge k 32 with h | h
  · exact (fall_airborne k h).2.1
  · have : k = 32 := by omega
    rw [this]
    exact fall_landed.2.1

theorem collideBirds_far (it : Pipe) (bs : List Bird) (i : Nat)
    (h : 120 + 80 * ((i + bs.length : Nat) : Int) ≤ it.x) : collideBirds it i bs = bs := by
  induction bs generalizing i with
  | nil => rfl
  | cons b rest ih =>
    simp only [List.length_cons] at h
    have hclear : hitsPipe it i b = false := by
      apply hitsPipe_clear
      right; right
      push_cast at h
      omega
    have hb : collideBird it i b = b := by
      unfold collideBird
      rw [hclear]
      simp
    simp only [collideBirds, hb]
    rw [ih (i + 1) (by
      have e : i + 1 + rest.length = i + (rest.length + 1) := by omega
      rw [e]
      exact h)]

theorem dieSoundSweep_of_not_collided (b : Bird) (h : b.collided = false) :
    dieSoundSweep b = b := by
  unfold dieSoundSweep
  rw [h]
  simp

/-- One frame of the simulation in free fall. -/
theorem simulated_fall (s0 : FlappyBird) (m : Nat) (gapY : Int) (j : Nat) (r : Nat)
    (hm : m ≤ 2) (hj : j < 32) :
    simulated (fallState s0 m gapY j) r = fallState s0 m gapY (j + 1) := by
  have hx : (640 : Int) - 2 * ((j + 1 : Nat) : Int) = 640 - 2 * (j : Int) - 2 := by
    push_cast
    omega
  have e1 : updateBirdPhysics (fallState s0 m gapY j) =
      fallAt s0 m gapY (j + 1) (640 - 2 * (j : Int)) := by
    simp [updateBirdPhysics, fallState, fallAt, fall]
  have hfar : collideBirds ⟨640 - 2 * (j : Int) - 2, gapY⟩ 0 (List.replicate m (fall (j + 1))) =
      List.replicate m (fall (j + 1)) := by
    apply collideBirds_far
    simp only [List.length_replicate, zero_add]
    have : ((m : Nat) : Int) ≤ 2 := by exact_mod_cast hm
    omega
  have hwin : inScoringWindow ⟨640 - 2 * (j : Int) - 2, gapY⟩ = false := by
    simp only [inScoringWindow, PIPE_WIDTH, WINDOW_WIDTH, Bool.and_eq_false_imp,
      decide_eq_true_eq, decide_eq_false_iff_not]
    omega
  have e2 : updatePipes (fallAt s0 m gapY (j + 1) (640 - 2 * (j : Int))) =
      fallAt s0 m gapY (j + 1) (640 - 2 * (j : Int) - 2) := by
    have hkeep : ¬ ((640 : Int) - 2 * (j : Int) - 2 + 50 < 0) := by omega
    simp only [fallAt, updatePipes, updatePipesLoop, hfar, scoreBirds, hwin, PIPE_WIDTH,
      if_neg hkeep]
    simp
  have hsweep : (List.replicate m (fall (j + 1))).map dieSoundSweep =
      List.replicate m (fall (j + 1)) := by
    rw [List.map_replicate, dieSoundSweep_of_not_collided _ (fall_collided (j + 1) (by omega))]
  unfold simulated
  rw [e1, e2]
  unfold spawnPipe
  rw [if_neg]
  · unfold fallState
    rw [hx]
    simp only [fallAt, hsweep]
  · simp only [fallAt, List.isEmpty_cons, List.getLast?_singleton, Bool.false_or,
      decide_eq_true_eq, WINDOW_WIDTH, PIPE_SPACING, PIPE_WIDTH]
    omega

theorem fallState_flags (s0 : FlappyBird) (m : Nat) (gapY : Int) (j : Nat) :
    (fallState s0 m gapY j).gameState = s0.gameState ∧
      (fallState s0 m gapY j).showGameOver = s0.showGameOver ∧
      (fallState s0 m gapY j).highScore = s0.highScore ∧
      (fallState s0 m gapY j).winner = s0.winner ∧
      (fallState s0 m gapY j).birds = List.replicate m (fall j) :=
  ⟨rfl, rfl, rfl, rfl, rfl⟩

/-- A frame in free fall while the birds stay in the air. -/
theorem update_fall (s0 : FlappyBird) (m : Nat) (gapY : Int) (j : Nat) (r : Nat)
    (hmode : s0.gameState = GameState.ONE_PLAYER ∨ s0.gameState = GameState.TWO_PLAYER)
    (hgo : s0.showGameOver = false) (hm : m = 1 ∨ m = 2) (hj : j + 1 < 32) :
    update (fallState s0 m gapY j) r = fallState s0 m gapY (j + 1) := by
  rw [update_running (fallState s0 m gapY j) r hmode hgo, simulated_fall s0 m gapY j r (by omega) (by omega)]
  rw [if_neg]
  rw [(fallState_flags s0 m gapY (j + 1)).2.2.2.2]
  have ha := (fall_airborne (j + 1) hj).1
  rcases hm with rfl | rfl <;> simp [List.replicate, ha]

/-- The frame in which the birds reach the ground. -/
theorem update_land (s0 : FlappyBird) (m : Nat) (gapY : Int) (r : Nat)
    (hmode : s0.gameState = GameState.ONE_PLAYER ∨ s0.gameState = GameState.TWO_PLAYER)
    (hgo : s0.showGameOver = false) (hm : m = 1 ∨ m = 2) :
    update (fallState s0 m gapY 31) r =
      { updateGameOver (fallState s0 m gapY 32) with
        showGameOver := true, buttons := [returnToMenuButton] } := by
  rw [update_running (fallState s0 m gapY 31) r hmode hgo, simulated_fall s0 m gapY 31 r (by omega) (by omega)]
  rw [if_pos]
  rw [(fallState_flags s0 m gapY (31 + 1)).2.2.2.2]
  have ha := fall_landed.1
  rcases hm with rfl | rfl <;> simp [List.replicate, ha]

theorem updates_fall (s0 : FlappyBird) (m : Nat) (gapY : Int)
    (hmode : s0.gameState = GameState.ONE_PLAYER ∨ s0.gameState = GameState.TWO_PLAYER)
    (hgo : s0.showGameOver = false) (hm : m = 1 ∨ m = 2) (rs : List Nat) (j : Nat)
    (hj : j + rs.length < 32) :
    updates (fallState s0 m gapY j) rs = fallState s0 m gapY (j + rs.length) := by
  induction rs generalizing j with
  | nil => rfl
  | cons r rs ih =>
    simp only [List.length_cons] at hj
    simp only [updates, List.length_cons]
    rw [update_fall s0 m gapY j r hmode hgo hm (by omega), ih (j + 1) (by omega)]
    congr 1
    omega

theorem updates_land (s0 : FlappyBird) (m : Nat) (gapY : Int)
    (hmode : s0.gameState = GameState.ONE_PLAYER ∨ s0.gameState = GameState.TWO_PLAYER)
    (hgo : s0.showGameOver = false) (hm : m = 1 ∨ m = 2) (rs : List Nat) (j : Nat)
    (hj : j + rs.length = 32) (hne : rs ≠ []) :
    updates (fallState s0 m gapY j) rs =
      { updateGameOver (fallState s0 m gapY 32) with
        showGameOver := true, buttons := [returnToMenuButton] } := by
  induction rs generalizing j with
  | nil => exact absurd rfl hne
  | cons r rs ih =>
    simp only [List.length_cons] at hj
    cases rs with
    | nil =>
      simp only [List.length_nil] at hj
      have e : j = 31 := by omega
      rw [e]
      simp only [updates]
      exact update_land s0 m gapY r hmode hgo hm
    | cons r' rs' =>
      simp only [List.length_cons] at hj
      rw [updates, update_fall s0 m gapY j r hmode hgo hm (by omega)]
      exact ih (j + 1) (by simp only [List.length_cons]; omega) (by simp)

theorem launch_one (g : FlappyBird) (r : Nat) :
    startGame (reset g 1) r =
        fallState (startGame (reset g 1) r) 1 ((r : Int) % 230 + 50) 0 ∧
      (startGame (reset g 1) r).gameState = GameState.ONE_PLAYER ∧
      (startGame (reset g 1) r).showGameOver = false ∧
      (startGame (reset g 1) r).winner = -1 ∧
      (startGame (reset g 1) r).highScore = max g.highScore 0 := by
  rw [reset_one]
  exact ⟨rfl, rfl, rfl, rfl, rfl⟩

theorem launch_two (g : FlappyBird) (r : Nat) :
    startGame (reset g 2) r =
        fallState (startGame (reset g 2) r) 2 ((r : Int) % 230 + 50) 0 ∧
      (startGame (reset g 2) r).gameState = GameState.TWO_PLAYER ∧
      (startGame (reset g 2) r).showGameOver = false ∧
      (startGame (reset g 2) r).winner = -1 ∧
      (startGame (reset g 2) r).highScore = g.highScore := by
  rw [reset_two]
  exact ⟨rfl, rfl, rfl, rfl, rfl⟩

/-- The outcome of a round in which every bird has fallen to the ground without a point. -/
theorem landed_outcome (s0 : FlappyBird) (m : Nat) (gapY : Int)
    (hm : (m = 1 ∧ s0.gameState = GameState.ONE_PLAYER) ∨
      (m = 2 ∧ s0.gameState = GameState.TWO_PLAYER))
    (hw : s0.winner = -1) :
    (updateGameOver (fallState s0 m gapY 32)).winner = -1 ∧
      (updateGameOver (fallState s0 m gapY 32)).highScore = max s0.highScore 0 := by
  have hs := fall_landed.2.2.1
  rcases hm with ⟨rfl, hmode⟩ | ⟨rfl, hmode⟩
  · simp [updateGameOver, fallState, fallAt, List.replicate, hs, hw]
  · simp [updateGameOver, fallState, fallAt, List.replicate, hs, hw, hmode]

/-- C30: the length of a round in free fall.  For `n` 1 or 2 and every random value, after
`reset(n)` and `startGame()` the frames without input leave every bird alive and the game-over
flag down up to the 31st frame; after the 32nd frame every bird is not alive, with
`y + 40 >= 480`, `collided = false` and score 0, the game-over flag is up, the winner indicator
is `-1` and the best score is `max(previous best, 0)`. -/
theorem free_fall_round (g : FlappyBird) (n : Int) (r : Nat) (rs : List Nat)
    (h : n = 1 ∨ n = 2) :
    (rs.length ≤ 31 →
        (updates (startGame (reset g n) r) rs).showGameOver = false ∧
        (updates (startGame (reset g n) r) rs).birds.length = n.toNat ∧
        ∀ b ∈ (updates (startGame (reset g n) r) rs).birds, b.alive = true) ∧
      (rs.length = 32 →
        (updates (startGame (reset g n) r) rs).showGameOver = true ∧
        (updates (startGame (reset g n) r) rs).birds.length = n.toNat ∧
        (∀ b ∈ (updates (startGame (reset g n) r) rs).birds,
          b.alive = false ∧ b.collided = false ∧ b.score = 0 ∧
          (b.y.add (F32.ofInt BIRD_SIZE)).ge (F32.ofInt WINDOW_HEIGHT) = true) ∧
        (updates (startGame (reset g n) r) rs).winner = -1 ∧
        (updates (startGame (reset g n) r) rs).highScore = max g.highScore 0) := by
  have key : ∃ (m : Nat) (gapY : Int), n.toNat = m ∧ (m = 1 ∨ m = 2) ∧
      startGame (reset g n) r = fallState (startGame (reset g n) r) m gapY 0 ∧
      ((m = 1 ∧ (startGame (reset g n) r).gameState = GameState.ONE_PLAYER) ∨
        (m = 2 ∧ (startGame (reset g n) r).gameState = GameState.TWO_PLAYER)) ∧
      (startGame (reset g n) r).showGameOver = false ∧
      (startGame (reset g n) r).winner = -1 ∧
      max (startGame (reset g n) r).highScore 0 = max g.highScore 0 := by
    rcases h with rfl | rfl
    · obtain ⟨e1, e2, e3, e4, e5⟩ := launch_one g r
      exact ⟨1, _, rfl, Or.inl rfl, e1, Or.inl ⟨rfl, e2⟩, e3, e4, by rw [e5]; simp⟩
    · obtain ⟨e1, e2, e3, e4, e5⟩ := launch_two g r
      exact ⟨2, _, rfl, Or.inr rfl, e1, Or.inr ⟨rfl, e2⟩, e3, e4, by rw [e5]⟩
  obtain ⟨m, gapY, hn, hm, hstart, hmm, hgo, hw, hbest⟩ := key
  have hmode : (startGame (reset g n) r).gameState = GameState.ONE_PLAYER ∨
      (startGame (reset g n) r).gameState = GameState.TWO_PLAYER := by
    rcases hmm with ⟨_, e⟩ | ⟨_, e⟩
    · exact Or.inl e
    · exact Or.inr e
  rw [hn]
  generalize startGame (reset g n) r = s0 at hstart hmm hgo hw hbest hmode ⊢
  constructor
  · intro hlen
    have e := updates_fall s0 m gapY hmode hgo hm rs 0 (by omega)
    rw [← hstart] at e
    rw [e]
    obtain ⟨_, f2, _, _, f5⟩ := fallState_flags s0 m gapY (0 + rs.length)
    refine ⟨f2.trans hgo, by rw [f5, List.length_replicate], ?_⟩
    intro b hb
    rw [f5] at hb
    rw [List.eq_of_mem_replicate hb]
    exact (fall_airborne _ (by omega)).1
  · intro hlen
    have e := updates_land s0 m gapY hmode hgo hm rs 0 (by omega) (by
      intro hnil
      rw [hnil] at hlen
      simp at hlen)
    rw [← hstart] at e
    rw [e]
    obtain ⟨o1, o2⟩ := landed_outcome s0 m gapY hmm hw
    have hbirds : (updateGameOver (fallState s0 m gapY 32)).birds =
        List.replicate m (fall 32) := by
      rw [updateGameOver_birds]
      rfl
    refine ⟨rfl, ?_, ?_, o1, o2.trans hbest⟩
    · show (updateGameOver (fallState s0 m gapY 32)).birds.length = m
      rw [hbirds, List.length_replicate]
    · intro b hb
      have hb' : b ∈ (updateGameOver (fallState s0 m gapY 32)).birds := hb
      rw [hbirds] at hb'
      rw [List.eq_of_mem_replicate hb']
      exact fall_landed

/-- C30 for a one-player round after 31 and after 32 frames. -/
theorem free_fall_round_witness :
    (updates (startGame (reset (initial 0) 1) 7) (List.replicate 31 0)).showGameOver = false ∧
      (updates (startGame (reset (initial 0) 1) 7) (List.replicate 32 0)).showGameOver = true ∧
      (updates (startGame (reset (initial 0) 1) 7) (List.replicate 32 0)).winner = -1 := by
  have h31 := (free_fall_round (initial 0) 1 7 (List.replicate 31 0) (Or.inl rfl)).1
    (by simp)
  have h32 := (free_fall_round (initial 0) 1 7 (List.replicate 32 0) (Or.inl rfl)).2
    (by simp)
  exact ⟨h31.1, h32.1, h32.2.2.2.1⟩

end FlappyBird
